import Mathlib

set_option maxRecDepth 100000

/-!
Verification of the similarity/clustering engine of the `websiteSimilar`
repository, as a shallow embedding of the Go source in Lean 4.

Modelling conventions, applied uniformly:
* Go `uint64` values are modelled as `Nat` with explicit reduction `% 2 ^ 64`
  where overflow can occur; bitwise operators are `Nat` bitwise operators.
* Go `float64` arithmetic is modelled exactly: ratios of integers become `ℚ`,
  and the cosine similarity (the only place a square root occurs) is modelled
  over `ℝ`.  All similarity comparisons performed by the engine are far from
  any float-rounding boundary, and none of the claims depends on rounding.
* Go maps are modelled as insertion-ordered association lists.  Go iterates
  maps in a randomized order; every modelled property is independent of the
  iteration order, and the fixed insertion order is one admissible order.
* Go slices become `List`, `nil` pointers become `Option`, and Go strings
  become `String` (with `String.utf8ByteSize` wherever Go takes `len` of a
  string or byte slice).
* `crypto/md5` is implemented in full (RFC 1321) so that every hash-derived
  value in the engine is computed exactly as the Go code computes it.
-/

namespace WebsiteSimilar

/-! ## Basic numeric helpers -/

/-- Two to the sixty-fourth power, the modulus of Go `uint64` arithmetic. -/
def U64 : Nat := 2 ^ 64

/-- Two to the thirty-second power, the modulus of Go `uint32` arithmetic. -/
def U32 : Nat := 2 ^ 32

/-- Bounded-fuel population count.  The Go source (similarity.go,
`HammingDistance64`) repeatedly clears the lowest set bit (`x &= x - 1`)
until the value is zero; 64 iterations always suffice for a 64-bit value,
so the loop is modelled with fuel 64. -/
def popCountAux : Nat → Nat → Nat
  | 0, _ => 0
  | fuel + 1, x => if x = 0 then 0 else popCountAux fuel (x &&& (x - 1)) + 1

/-- Definition `HammingDistance64` of similarity.go: the number of bit positions at
which two 64-bit values differ. -/
def HammingDistance64 (a b : Nat) : Nat := popCountAux 64 (a ^^^ b)

/-- Lowercase hexadecimal digit for a value below 16. -/
def hexDigit (n : Nat) : Char :=
  if n < 10 then Char.ofNat (48 + n) else Char.ofNat (87 + n)

/-- Lowercase hexadecimal rendering of a `Nat` with no leading zeroes
(Go `fmt.Sprintf "%x"` on an integer); `0` renders as `"0"`. -/
def natToHexAux : Nat → Nat → List Char
  | 0, _ => []
  | fuel + 1, n =>
    if n = 0 then [] else natToHexAux fuel (n / 16) ++ [hexDigit (n % 16)]

/-- Hexadecimal of a natural number, as Go formats integers with `%x`. -/
def natToHex (n : Nat) : String :=
  if n = 0 then "0" else String.mk (natToHexAux 64 n)

/-- Hexadecimal of a byte sequence, two digits per byte (Go `%x` on a byte
slice). -/
def bytesToHex (bs : List Nat) : String :=
  String.mk (bs.foldr (fun b acc => hexDigit (b / 16 % 16) :: hexDigit (b % 16) :: acc) [])

/-! ## String helpers (models of the Go standard-library calls used) -/

/-- ASCII lowercasing of a character, matching Go `strings.ToLower` on the
ASCII range (the only range on which keyword matching relies; CJK
keyword characters are unaffected by lowercasing in both systems). -/
def lowerChar (c : Char) : Char :=
  if 'A' ≤ c ∧ c ≤ 'Z' then Char.ofNat (c.toNat + 32) else c

/-- Model of Go `strings.ToLower`. -/
def toLowerStr (s : String) : String := String.mk (s.data.map lowerChar)

/-- Whether `pat` occurs at the head of `l`. -/
def matchesAt : List Char → List Char → Bool
  | [], _ => true
  | _ :: _, [] => false
  | p :: ps, c :: cs => p = c && matchesAt ps cs

/-- Whether `pat` occurs anywhere in `l` (model of Go `strings.Contains`;
byte-level and character-level containment agree on valid UTF-8). -/
def listHasSub (pat : List Char) : List Char → Bool
  | [] => pat.isEmpty
  | c :: cs => matchesAt pat (c :: cs) || listHasSub pat cs

/-- Model of Go `strings.Contains s sub`. -/
def containsSub (s sub : String) : Bool := listHasSub sub.data s.data

/-- Model of Go `strings.HasSuffix`. -/
def hasSuffixStr (s suf : String) : Bool :=
  matchesAt suf.data.reverse s.data.reverse

/-- Model of Go `strings.TrimSuffix`. -/
def trimSuffixStr (s suf : String) : String :=
  if hasSuffixStr s suf && suf.length ≤ s.length then
    String.mk (s.data.take (s.length - suf.length))
  else s

/-- Whitespace splitter: accumulates the current word (reversed) and walks
the characters; model of Go `strings.Fields`, which splits around runs of
whitespace and never yields empty fields. -/
def fieldsAux (cur : List Char) : List Char → List String
  | [] => if cur.isEmpty then [] else [String.mk cur.reverse]
  | c :: cs =>
    if c.isWhitespace then
      if cur.isEmpty then fieldsAux [] cs
      else String.mk cur.reverse :: fieldsAux [] cs
    else fieldsAux (c :: cur) cs

/-- Model of Go `strings.Fields`. -/
def fields (s : String) : List String := fieldsAux [] s.data

/-- Drop leading whitespace characters. -/
def dropLeadingWS (l : List Char) : List Char := l.dropWhile Char.isWhitespace

/-- Model of Go `strings.TrimSpace`. -/
def trimSpaceStr (s : String) : String :=
  String.mk ((dropLeadingWS s.data).reverse.dropWhile Char.isWhitespace).reverse

/-- UTF-8 encoding of one character, as a list of byte values. -/
def utf8Char (c : Char) : List Nat :=
  let n := c.toNat
  if n < 0x80 then [n]
  else if n < 0x800 then [0xC0 ||| (n >>> 6), 0x80 ||| (n &&& 0x3F)]
  else if n < 0x10000 then
    [0xE0 ||| (n >>> 12), 0x80 ||| ((n >>> 6) &&& 0x3F), 0x80 ||| (n &&& 0x3F)]
  else
    [0xF0 ||| (n >>> 18), 0x80 ||| ((n >>> 12) &&& 0x3F),
     0x80 ||| ((n >>> 6) &&& 0x3F), 0x80 ||| (n &&& 0x3F)]

/-- UTF-8 byte sequence of a string (the byte view Go takes of a string). -/
def utf8Bytes (s : String) : List Nat := s.data.flatMap utf8Char

end WebsiteSimilar

namespace WebsiteSimilar

/-! ## MD5 (RFC 1321), the `crypto/md5` primitive used by the engine -/

/-- Per-round shift amounts of MD5. -/
def md5Shifts : List Nat :=
  [7, 12, 17, 22, 7, 12, 17, 22, 7, 12, 17, 22, 7, 12, 17, 22,
   5, 9, 14, 20, 5, 9, 14, 20, 5, 9, 14, 20, 5, 9, 14, 20,
   4, 11, 16, 23, 4, 11, 16, 23, 4, 11, 16, 23, 4, 11, 16, 23,
   6, 10, 15, 21, 6, 10, 15, 21, 6, 10, 15, 21, 6, 10, 15, 21]

/-- Per-round additive constants of MD5 (binary digits of the sines). -/
def md5K : List Nat :=
  [0xd76aa478, 0xe8c7b756, 0x242070db, 0xc1bdceee,
   0xf57c0faf, 0x4787c62a, 0xa8304613, 0xfd469501,
   0x698098d8, 0x8b44f7af, 0xffff5bb1, 0x895cd7be,
   0x6b901122, 0xfd987193, 0xa679438e, 0x49b40821,
   0xf61e2562, 0xc040b340, 0x265e5a51, 0xe9b6c7aa,
   0xd62f105d, 0x02441453, 0xd8a1e681, 0xe7d3fbc8,
   0x21e1cde6, 0xc33707d6, 0xf4d50d87, 0x455a14ed,
   0xa9e3e905, 0xfcefa3f8, 0x676f02d9, 0x8d2a4c8a,
   0xfffa3942, 0x8771f681, 0x6d9d6122, 0xfde5380c,
   0xa4beea44, 0x4bdecfa9, 0xf6bb4b60, 0xbebfbc70,
   0x289b7ec6, 0xeaa127fa, 0xd4ef3085, 0x04881d05,
   0xd9d4d039, 0xe6db99e5, 0x1fa27cf8, 0xc4ac5665,
   0xf4292244, 0x432aff97, 0xab9423a7, 0xfc93a039,
   0x655b59c3, 0x8f0ccc92, 0xffeff47d, 0x85845dd1,
   0x6fa87e4f, 0xfe2ce6e0, 0xa3014314, 0x4e0811a1,
   0xf7537e82, 0xbd3af235, 0x2ad7d2bb, 0xeb86d391]

/-- Left rotation on 32 bits (argument assumed below `2 ^ 32`). -/
def rotl32 (x s : Nat) : Nat := ((x <<< s) ||| (x >>> (32 - s))) % U32

/-- Bitwise complement on 32 bits. -/
def not32 (x : Nat) : Nat := 0xFFFFFFFF ^^^ x

/-- One MD5 round: the state is `(A, B, C, D)`, `m` the 16 message words of
the current chunk, `i` the round index. -/
def md5Round (m : List Nat) (st : Nat × Nat × Nat × Nat) (i : Nat) :
    Nat × Nat × Nat × Nat :=
  let (a, b, c, d) := st
  let fg : Nat × Nat :=
    if i < 16 then ((b &&& c) ||| (not32 b &&& d), i)
    else if i < 32 then ((d &&& b) ||| (not32 d &&& c), (5 * i + 1) % 16)
    else if i < 48 then (b ^^^ c ^^^ d, (3 * i + 5) % 16)
    else (c ^^^ (b ||| not32 d), 7 * i % 16)
  let f := (fg.1 + a + md5K.getD i 0 + m.getD fg.2 0) % U32
  (d, (b + rotl32 f (md5Shifts.getD i 0)) % U32, b, c)

/-- Little-endian 32-bit words of one 64-byte chunk. -/
def md5Words (chunk : List Nat) : List Nat :=
  (List.range 16).map fun j =>
    chunk.getD (4 * j) 0 + chunk.getD (4 * j + 1) 0 * 0x100 +
      chunk.getD (4 * j + 2) 0 * 0x10000 + chunk.getD (4 * j + 3) 0 * 0x1000000

/-- Process one chunk, updating the running digest state. -/
def md5Chunk (st : Nat × Nat × Nat × Nat) (chunk : List Nat) :
    Nat × Nat × Nat × Nat :=
  let m := md5Words chunk
  let (a, b, c, d) := (List.range 64).foldl (md5Round m) st
  ((st.1 + a) % U32, (st.2.1 + b) % U32, (st.2.2.1 + c) % U32, (st.2.2.2 + d) % U32)

/-- Split a byte sequence into 64-byte chunks (fuel-bounded; the fuel
`l.length` always suffices because every step consumes at least one byte). -/
def toChunks : Nat → List Nat → List (List Nat)
  | 0, _ => []
  | _, [] => []
  | fuel + 1, l => l.take 64 :: toChunks fuel (l.drop 64)

/-- MD5 padding: a `0x80` byte, zeroes to 56 mod 64, then the bit length as
eight little-endian bytes. -/
def md5Pad (msg : List Nat) : List Nat :=
  let len := msg.length
  let zeroes := (119 - len % 64) % 64
  let bitLen := len * 8 % U64
  msg ++ 0x80 :: List.replicate zeroes 0 ++
    (List.range 8).map fun j => bitLen / 2 ^ (8 * j) % 0x100

/-- Little-endian byte rendering of a 32-bit word. -/
def wordBytes (w : Nat) : List Nat :=
  [w % 0x100, w / 0x100 % 0x100, w / 0x10000 % 0x100, w / 0x1000000 % 0x100]

/-- MD5 digest (16 bytes) of a byte sequence. -/
def md5 (msg : List Nat) : List Nat :=
  let padded := md5Pad msg
  let (a, b, c, d) :=
    (toChunks padded.length padded).foldl md5Chunk
      (0x67452301, 0xefcdab89, 0x98badcfe, 0x10325476)
  wordBytes a ++ wordBytes b ++ wordBytes c ++ wordBytes d

/-- MD5 digest of the UTF-8 bytes of a string (Go `md5.Sum([]byte(s))`). -/
def md5Str (s : String) : List Nat := md5 (utf8Bytes s)

/-- First eight digest bytes interpreted big-endian as a 64-bit value; this
is the loop `result = result<<8 | uint64(h[i])` used both by
`hash64ForRule` (rule_cluster.go) and `computeMD5Hash` (the feature
extractor). -/
def first8BE (digest : List Nat) : Nat :=
  (digest.take 8).foldl (fun r b => r * 0x100 + b) 0

end WebsiteSimilar

namespace WebsiteSimilar

/-! ## Data model (types.go) -/

/-- Content categories are Go string constants; the zero value is the empty
string (types.go `ContentCategory`). -/
def ContentCategoryHTML : String := "html"

/-- Category for JSON, XML, plain text and similar responses. -/
def ContentCategoryText : String := "text"

/-- Category for image responses. -/
def ContentCategoryImage : String := "image"

/-- Category for any other response with a content type. -/
def ContentCategoryBinary : String := "binary"

/-- Category for empty or failed responses. -/
def ContentCategoryEmpty : String := "empty"

/-- Definition `MinTextLength` of types.go. -/
def MinTextLength : Nat := 200

/-- Definition `PageFeatures` of types.go.  Timing fields are Go `float64`, modelled
exactly as rationals; hash fields are `uint64` values below `2 ^ 64`. -/
structure PageFeatures where
  Category : String := ""
  TextSimHash : Nat := 0
  TextLength : Nat := 0
  DOMNodeCount : Nat := 0
  TextNodeCount : Nat := 0
  TagCount : List (String × Nat) := []
  DepthHist : List Nat := []
  PathCount : List (String × Nat) := []
  ScreenshotW : Nat := 0
  ScreenshotH : Nat := 0
  PHash : Nat := 0
  TTFB : ℚ := 0
  DOMContentLoaded : ℚ := 0
  LoadEvent : ℚ := 0
deriving DecidableEq

/-- Definition `FetchResult` of types.go (with the embedded `URLItem` flattened, as Go
field promotion does).  `RawHTML`/`RawBody` are byte slices, modelled as
strings whose UTF-8 bytes are the slice contents. -/
structure FetchResult where
  ID : Nat := 0
  RawURL : String := ""
  NormalizedURL : String := ""
  FinalURL : String := ""
  RedirectChain : List String := []
  StatusCode : Nat := 0
  ContentLength : Int := 0
  ContentType : String := ""
  ContentCategory : String := ""
  Error : String := ""
  RawHTML : String := ""
  RawBody : String := ""
  Title : String := ""
deriving DecidableEq

/-- Definition `PageWithFeatures` of types.go: a fetch result plus an optional
(pointer-valued) feature record. -/
structure PageWithFeatures extends FetchResult where
  Features : Option PageFeatures := none
deriving DecidableEq

/-- Definition `ClusterGroup` of cluster.go; `Canonical` is a pointer in Go, hence an
`Option` here. -/
structure ClusterGroup where
  ClusterID : String
  Canonical : Option PageWithFeatures
  Members : List PageWithFeatures
deriving DecidableEq

/-- Definition `RuleAssignment` of rule_cluster.go. -/
structure RuleAssignment where
  ClusterID : String
  IsCanonical : Bool
  Priority : Nat
deriving DecidableEq

/-- Definition `HtmlFingerprint` of rule_cluster.go. -/
structure HtmlFingerprint where
  Length : Nat
  Hash : Nat
deriving DecidableEq

/-! ## Similarity engine (similarity.go) -/

/-- Threshold for `simContent` in rule 1 of `IsDuplicate`. -/
def ContentSimThreshold : ℚ := 0.97

/-- Threshold for `simStructure` in rule 1 of `IsDuplicate`. -/
def StructureSimThreshold : ℚ := 0.85

/-- Threshold for `simVisual` in rule 1 of `IsDuplicate`. -/
def VisualSimThreshold : ℚ := 0.85

/-- Threshold for the visual override, rule 2 of `IsDuplicate`. -/
def VisualHighSimThreshold : ℚ := 0.99

/-- Maximum SimHash hamming distance accepted by the pre-filter. -/
def QuickSimHashMaxDist : Nat := 8

/-- Definition `simContent`: text similarity from SimHash hamming distance, floored to
zero on empty text, length ratio below 0.3, or distance at least 16. -/
def simContent (a b : PageFeatures) : ℚ :=
  if a.TextLength = 0 ∨ b.TextLength = 0 then 0
  else
    let ratio : ℚ := ((min a.TextLength b.TextLength : ℕ) : ℚ) / ((max a.TextLength b.TextLength : ℕ) : ℚ)
    if ratio < 0.3 then 0
    else
      let d := HammingDistance64 a.TextSimHash b.TextSimHash
      if 16 ≤ d then 0 else 1 - (d : ℚ) / 16

/-- Dot product of two equally long rational vectors (the running sums of
`cosineSimilarity` in similarity.go). -/
def dotQ (va vb : List ℚ) : ℚ :=
  ((va.zip vb).map fun p => p.1 * p.2).sum

/-- Definition `cosineSimilarity` of similarity.go: zero on length mismatch or a zero
norm, otherwise the cosine of the two vectors. -/
noncomputable def cosineSimilarity (va vb : List ℚ) : ℝ :=
  if va.length ≠ vb.length then 0
  else if dotQ va va = 0 ∨ dotQ vb vb = 0 then 0
  else (dotQ va vb : ℝ) / (Real.sqrt (dotQ va va) * Real.sqrt (dotQ vb vb))

/-- Count for a tag key in a tag-count map, defaulting to zero as Go map
indexing does. -/
def tagGet (m : List (String × Nat)) (k : String) : Nat :=
  ((m.find? fun p => p.1 = k).map Prod.snd).getD 0

/-- The 7-entry DOM statistics vector of `simDOMStats`:
`[domNodeCount, textNodeCount, div, a, img, input, script]`. -/
def domVec (a : PageFeatures) : List ℚ :=
  [(a.DOMNodeCount : ℚ), (a.TextNodeCount : ℚ)] ++
    (["div", "a", "img", "input", "script"].map fun t => (tagGet a.TagCount t : ℚ))

/-- Definition `simDOMStats`: cosine similarity of the DOM statistics vectors. -/
noncomputable def simDOMStats (a b : PageFeatures) : ℝ :=
  cosineSimilarity (domVec a) (domVec b)

/-- Numerator and denominator of `simPath` as naturals: `(0, 1)` in the
zero branches, else the weighted intersection and union sums. -/
def pathFrac (a b : PageFeatures) : Nat × Nat :=
  if a.PathCount = [] ∨ b.PathCount = [] then (0, 1)
  else
    let keys := ((a.PathCount.map Prod.fst) ++ (b.PathCount.map Prod.fst)).dedup
    let inter := (keys.map fun k =>
      min (tagGet a.PathCount k) (tagGet b.PathCount k)).sum
    let uni := (keys.map fun k =>
      max (tagGet a.PathCount k) (tagGet b.PathCount k)).sum
    if uni = 0 then (0, 1) else (inter, uni)

/-- Definition `simPath`: weighted Jaccard over the union of path keys, zero when
either map is empty or the union weight is zero (those early returns are
the `(0, 1)` branches of `pathFrac`), else the ratio of the intersection and
union sums.  The source sums `math.Min`/`math.Max` of float casts of the
integer counts, which is exact integer arithmetic. -/
def simPath (a b : PageFeatures) : ℚ :=
  ((pathFrac a b).1 : ℚ) / ((pathFrac a b).2 : ℚ)

/-- Definition `simStructure`: the even mix of DOM-statistics and path similarity. -/
noncomputable def simStructure (a b : PageFeatures) : ℝ :=
  0.5 * simDOMStats a b + 0.5 * (simPath a b : ℝ)

/-- Definition `simVisual`: perceptual-hash similarity, zero when either hash is zero
or the distance is at least 20. -/
def simVisual (a b : PageFeatures) : ℚ :=
  if a.PHash = 0 ∨ b.PHash = 0 then 0
  else
    let d := HammingDistance64 a.PHash b.PHash
    if 20 ≤ d then 0 else 1 - (d : ℚ) / 20

/-- The timing vector `[ttfb, domContentLoaded, loadEvent]`. -/
def behaviorVec (a : PageFeatures) : List ℚ :=
  [a.TTFB, a.DOMContentLoaded, a.LoadEvent]

/-- Definition `simBehavior`: cosine similarity of the timing vectors. -/
noncomputable def simBehavior (a b : PageFeatures) : ℝ :=
  cosineSimilarity (behaviorVec a) (behaviorVec b)

/-- Definition `totalSim`: the display-only weighted mix of the four scores. -/
noncomputable def totalSim (contentSim structSim visualSim behaviorSim : ℝ) : ℝ :=
  0.4 * contentSim + 0.25 * structSim + 0.25 * visualSim + 0.10 * behaviorSim

/-- Natural-number dot product (the integer view of the running sums of
`cosineSimilarity`, whose inputs here are counts). -/
def dotN (va vb : List Nat) : Nat :=
  ((va.zip vb).map fun p => p.1 * p.2).sum

/-- The DOM statistics vector over `Nat` (`domVec` before the cast). -/
def domVecN (a : PageFeatures) : List Nat :=
  [a.DOMNodeCount, a.TextNodeCount] ++
    (["div", "a", "img", "input", "script"].map fun t => tagGet a.TagCount t)

/-- Integer decision procedure for the float comparison
`simStructure a b >= 0.85` of `IsDuplicate`.  With `simPath = i/u` the test
is `0.85 ≤ 0.5·cos + 0.5·i/u`, i.e. `r ≤ cos` for `r = (17u − 10i)/(10u)`;
for nonnegative cosine inputs this holds iff `r ≤ 0` or
`r²·‖A‖²·‖B‖² ≤ dot²`.  `structGE_iff` proves the agreement with
`simStructure` over `ℝ`. -/
def structGE (a b : PageFeatures) : Bool :=
  let p := pathFrac a b
  let i := p.1
  let u := p.2
  let va := domVecN a
  let vb := domVecN b
  if va.length ≠ vb.length then decide (17 * u ≤ 10 * i)
  else if dotN va va = 0 ∨ dotN vb vb = 0 then decide (17 * u ≤ 10 * i)
  else if 17 * u ≤ 10 * i then true
  else decide ((17 * u - 10 * i) ^ 2 * (dotN va va * dotN vb vb) ≤
    100 * u ^ 2 * dotN va vb ^ 2)

/-- Integer decision procedure for `ContentSimThreshold ≤ simContent a b`
(`contentGE_iff` proves the agreement): the ratio floor `min/max < 0.3`
becomes `10·min < 3·max`, and `1 − d/16 ≥ 0.97` becomes
`97·16 ≤ 100·(16 − d)`. -/
def contentGE (a b : PageFeatures) : Bool :=
  if a.TextLength = 0 ∨ b.TextLength = 0 then false
  else if 10 * min a.TextLength b.TextLength < 3 * max a.TextLength b.TextLength then
    false
  else
    let d := HammingDistance64 a.TextSimHash b.TextSimHash
    if 16 ≤ d then false
    else decide (97 * 16 ≤ 100 * (16 - d))

/-- Integer decision procedure for `num/den ≤ simVisual a b`
(`visualGE_iff` proves the agreement for positive thresholds):
`1 − d/20 ≥ num/den` becomes `num·20 ≤ den·(20 − d)`. -/
def visualGE (a b : PageFeatures) (num den : Nat) : Bool :=
  if a.PHash = 0 ∨ b.PHash = 0 then false
  else
    let d := HammingDistance64 a.PHash b.PHash
    if 20 ≤ d then false
    else decide (num * 20 ≤ den * (20 - d))

end WebsiteSimilar

namespace WebsiteSimilar

/-- Definition `IsDuplicate` of similarity.go: rule 1 (content at least 0.97 plus
structure or visual at least 0.85) or rule 2 (visual at least 0.99).  Each
float comparison is decided by the exact integer procedure above;
`isDuplicate_iff` proves this function equal to the predicate over the
similarity scores `simContent`, `simStructure`, `simVisual` as translated
directly from the source. -/
def IsDuplicate (a b : PageFeatures) : Bool :=
  (contentGE a b && (structGE a b || visualGE a b 85 100)) ||
  visualGE a b 99 100

/-! ## Clustering engine (cluster.go) -/

/-- Definition `quickSimHashCheck` of cluster.go: the SimHash pre-filter run on every
candidate pair before the full `IsDuplicate` test.  `nil` feature pointers
fail the check; then the hamming distance of the text SimHashes must be at
most `QuickSimHashMaxDist`, both text lengths positive, and the length
ratio at least one half (`lenA/lenB >= 0.5` is decided exactly as
`lenB ≤ 2*lenA`; `quickSimHashCheck_iff` below restates it as the ratio
the source computes). -/
def quickSimHashCheck (oa ob : Option PageFeatures) : Bool :=
  match oa, ob with
  | some a, some b =>
    let simHashDist := HammingDistance64 a.TextSimHash b.TextSimHash
    if QuickSimHashMaxDist < simHashDist then false
    else if a.TextLength = 0 ∨ b.TextLength = 0 then false
    else
      let lenA := min a.TextLength b.TextLength
      let lenB := max a.TextLength b.TextLength
      decide (lenB ≤ 2 * lenA)
  | _, _ => false

/-- First position at which `pat` occurs in `l`, if any. -/
def findSub (pat : List Char) : List Char → Option Nat
  | [] => if pat.isEmpty then some 0 else none
  | c :: cs =>
    if matchesAt pat (c :: cs) then some 0
    else (findSub pat cs).map (· + 1)

/-- Split an absolute URL at `"://"` into scheme and remainder.  This (and
the helpers below) model Go `net/url.Parse` for the absolute `http(s)`
URLs the engine handles; `url.Parse` only returns an error on control
characters, which do not occur in the modelled inputs. -/
def urlSchemeRest (u : String) : Option (String × String) :=
  match findSub "://".data u.data with
  | none => none
  | some i => some (String.mk (u.data.take i), String.mk (u.data.drop (i + 3)))

/-- The `Host` field of a parsed URL (`host:port`, empty for relative
URLs). -/
def urlHostPort (u : String) : String :=
  match urlSchemeRest u with
  | none => ""
  | some (_, rest) =>
    String.mk (rest.data.takeWhile fun c => c ≠ '/' ∧ c ≠ '?' ∧ c ≠ '#')

/-- Definition `URL.Hostname()`: the host with any port stripped. -/
def urlHostname (u : String) : String :=
  String.mk ((urlHostPort u).data.takeWhile (· ≠ ':'))

/-- Definition `URL.Port()`: the port, or the empty string when absent. -/
def urlPort (u : String) : String :=
  let hp := (urlHostPort u).data
  if hp.any (· = ':') then String.mk ((hp.dropWhile (· ≠ ':')).drop 1) else ""

/-- Definition `URL.Scheme`. -/
def urlScheme (u : String) : String :=
  match urlSchemeRest u with
  | none => ""
  | some (s, _) => s

/-- Definition `URL.Path`: for an absolute URL the part after the host up to any query
or fragment; for a relative URL the string itself up to any query or
fragment (as Go parses a bare path). -/
def urlPath (u : String) : String :=
  match urlSchemeRest u with
  | none => String.mk (u.data.takeWhile fun c => c ≠ '?' ∧ c ≠ '#')
  | some (_, rest) =>
    String.mk (((rest.data.dropWhile fun c => c ≠ '/' ∧ c ≠ '?' ∧ c ≠ '#').takeWhile
      fun c => c ≠ '?' ∧ c ≠ '#'))

/-- Definition `generateBucketKey` of cluster.go: the MD5 hex of
`"{host}|{top 16 SimHash bits}|{textLength/1000}"`.  The Go code
dereferences `page.Features` unconditionally (callers only pass pages with
features); the model uses the default record for an absent pointer. -/
def generateBucketKey (page : PageWithFeatures) : String :=
  let host := urlHostPort page.FinalURL
  let f := page.Features.getD {}
  let top16Bits := (f.TextSimHash >>> 48) &&& 0xFFFF
  let lengthBucket := f.TextLength / 1000
  let key := host ++ "|" ++ toString top16Bits ++ "|" ++ toString lengthBucket
  bytesToHex (md5Str key)

/-- The comparator of `selectCanonical` (cluster.go): status 200 first,
then longer text, then smaller id. -/
def pageLess (a b : PageWithFeatures) : Bool :=
  if a.StatusCode = 200 ∧ b.StatusCode ≠ 200 then true
  else if a.StatusCode ≠ 200 ∧ b.StatusCode = 200 then false
  else
    match a.Features, b.Features with
    | some fa, some fb =>
      if fa.TextLength ≠ fb.TextLength then decide (fb.TextLength < fa.TextLength)
      else decide (a.ID < b.ID)
    | _, _ => decide (a.ID < b.ID)

/-- The in-place `sort.Slice` of `selectCanonical`, modelled as a sort by
the same comparator (the comparator is a strict total order whenever ids
are distinct, so the sorted sequence is unique). -/
def sortPages (ps : List PageWithFeatures) : List PageWithFeatures :=
  List.insertionSort (fun a b => pageLess a b = true) ps

/-- Definition `selectCanonical` of cluster.go: sort and take the first element. -/
def selectCanonical (ps : List PageWithFeatures) : Option PageWithFeatures :=
  (sortPages ps).head?

/-- Union-find parent array over `0 .. n-1`. -/
def ufInit (n : Nat) : List Nat := List.range n

/-- Walk parent pointers with fuel (the array length always suffices,
because union only ever links one root below another root). -/
def ufFindAux : Nat → List Nat → Nat → Nat
  | 0, _, x => x
  | fuel + 1, uf, x =>
    let p := uf.getD x x
    if p = x then x else ufFindAux fuel uf p

/-- Definition `UnionFind.Find`.  Path compression is omitted: it rewrites parent
pointers within one component and never changes any root, so the partition
into components is unchanged. -/
def ufFind (uf : List Nat) (x : Nat) : Nat := ufFindAux uf.length uf x

/-- Definition `UnionFind.Union`.  Union-by-rank is omitted: the choice of which root
survives never changes the partition into components. -/
def ufUnion (uf : List Nat) (x y : Nat) : List Nat :=
  let rx := ufFind uf x
  let ry := ufFind uf y
  if rx = ry then uf else uf.set ry rx

/-- Features of the page at an index of a bucket list. -/
def pageFeatAt (l : List PageWithFeatures) (i : Nat) : Option PageFeatures :=
  ((l.get? i).map PageWithFeatures.Features).getD none

/-- First pass of `Cluster`: compare every page of the (sorted) bucket with
the canonical at index 0, merging on pre-filter plus `IsDuplicate`. -/
def clusterPass1 (sorted : List PageWithFeatures) (uf : List Nat) : List Nat :=
  match sorted.head? with
  | none => uf
  | some can =>
    (List.range sorted.length).foldl
      (fun u i =>
        if i = 0 then u
        else if quickSimHashCheck can.Features (pageFeatAt sorted i) then
          match can.Features, pageFeatAt sorted i with
          | some fa, some fb => if IsDuplicate fa fb then ufUnion u 0 i else u
          | _, _ => u
        else u) uf

/-- Second pass of `Cluster`: pages not merged with the canonical are
compared pairwise, skipping (at the moment each index is reached) pages
already merged with the canonical. -/
def clusterPass2 (sorted : List PageWithFeatures) (uf : List Nat) : List Nat :=
  let n := sorted.length
  (List.range n).foldl
    (fun u i =>
      if i = 0 ∨ ufFind u i = ufFind u 0 then u
      else
        (List.range n).foldl
          (fun u2 j =>
            if j ≤ i then u2
            else if j = 0 ∨ ufFind u2 j = ufFind u2 0 then u2
            else if quickSimHashCheck (pageFeatAt sorted i) (pageFeatAt sorted j) then
              match pageFeatAt sorted i, pageFeatAt sorted j with
              | some fa, some fb => if IsDuplicate fa fb then ufUnion u2 i j else u2
              | _, _ => u2
            else u2) u) uf

/-- Definition `UnionFind.GetClusters`: indices grouped by their root. -/
def componentsOf (uf : List Nat) (n : Nat) : List (List Nat) :=
  let idx := List.range n
  ((idx.map fun i => ufFind uf i).dedup).map fun r => idx.filter fun i => ufFind uf i = r

/-- Zero-padded five-digit rendering (Go `fmt.Sprintf "cluster-%05d"`). -/
def pad5 (n : Nat) : String :=
  let s := toString n
  String.mk (List.replicate (5 - s.length) '0') ++ s

/-- Build one emitted `ClusterGroup`.  The source calls `selectCanonical`
on the member slice, which sorts it in place: the emitted member list is
therefore the sorted list and the canonical its head. -/
def mkClusterGroup (counter : Nat) (members : List PageWithFeatures) : ClusterGroup :=
  let sortedMembers := sortPages members
  { ClusterID := "cluster-" ++ pad5 counter
    Canonical := sortedMembers.head?
    Members := sortedMembers }

/-- Process one bucket: skip buckets of fewer than two pages, run both
merge passes, keep components of at least two members, and number them from
`startId`. -/
def clustersOfBucket (startId : Nat) (ps : List PageWithFeatures) :
    List ClusterGroup × Nat :=
  if ps.length < 2 then ([], startId)
  else
    let sorted := sortPages ps
    let n := sorted.length
    let uf := clusterPass2 sorted (clusterPass1 sorted (ufInit n))
    let comps := (componentsOf uf n).filter fun c => 2 ≤ c.length
    let groups := comps.enum.map fun jc =>
      mkClusterGroup (startId + jc.1) (jc.2.filterMap fun i => sorted.get? i)
    (groups, startId + comps.length)

/-- Append a value to the bucket for its key, keeping insertion order (the
model of `m[k] = append(m[k], v)` on a Go map of slices). -/
def appendAt {κ β : Type} [DecidableEq κ] (m : List (κ × List β)) (k : κ)
    (p : β) : List (κ × List β) :=
  match m with
  | [] => [(k, [p])]
  | (k₁, ps) :: rest =>
    if k₁ = k then (k₁, ps ++ [p]) :: rest else (k₁, ps) :: appendAt rest k p

/-- The bucket map of `Cluster`: pages without features are skipped, the
rest are grouped by `generateBucketKey`. -/
def bucketsOf (pages : List PageWithFeatures) :
    List (String × List PageWithFeatures) :=
  pages.foldl
    (fun bs p => if p.Features = none then bs else appendAt bs (generateBucketKey p) p)
    []

/-- Definition `Cluster` of cluster.go: bucket the pages, merge within each bucket,
and emit the components of size at least two with sequential
`cluster-NNNNN` identifiers starting at 1. -/
def Cluster (pages : List PageWithFeatures) : List ClusterGroup :=
  ((bucketsOf pages).foldl
    (fun acc kps =>
      let r := clustersOfBucket acc.2 kps.2
      (acc.1 ++ r.1, r.2))
    (([] : List ClusterGroup), 1)).1

end WebsiteSimilar

namespace WebsiteSimilar

/-! ## Rule classifier (rule_cluster.go) -/

/-- Definition `OriginKey`: `scheme://host:port`, lowercased, with default ports 443
(https) and 80 (otherwise); empty when scheme or host is missing. -/
def OriginKey (u : String) : String :=
  let scheme := toLowerStr (urlScheme u)
  let host := toLowerStr (urlHostname u)
  let port₀ := urlPort u
  if scheme = "" ∨ host = "" then ""
  else
    let port := if port₀ = "" then (if scheme = "https" then "443" else "80") else port₀
    scheme ++ "://" ++ host ++ ":" ++ port

/-- Characters remaining after the first `>` of a list, if a `>` occurs. -/
def dropThroughGT : List Char → Option (List Char)
  | [] => none
  | c :: cs => if c = '>' then some cs else dropThroughGT cs

/-- The tag-stripping loop of `extractSimpleText`: replace every
`<...>` span by one space; when a `<` has no closing `>`, the loop breaks
and the remainder is kept verbatim.  Each step consumes at least one
character, so fuel equal to the length suffices. -/
def stripTagsAux : Nat → List Char → List Char
  | 0, l => l
  | fuel + 1, l =>
    match l with
    | [] => []
    | c :: cs =>
      if c = '<' then
        match dropThroughGT cs with
        | some rest => ' ' :: stripTagsAux fuel rest
        | none => c :: cs
      else c :: stripTagsAux fuel cs

/-- Definition `extractSimpleText` of rule_cluster.go. -/
def extractSimpleText (html : String) : String :=
  String.mk (stripTagsAux html.data.length html.data)

/-- Collapse runs of spaces to single spaces: the fixpoint of the loop
`ReplaceAll "  " " "` in the source. -/
def collapseSpacesAux : Bool → List Char → List Char
  | _, [] => []
  | prevSpace, c :: cs =>
    if c = ' ' then
      if prevSpace then collapseSpacesAux true cs
      else ' ' :: collapseSpacesAux true cs
    else c :: collapseSpacesAux false cs

/-- Definition `cleanTextForFingerprint`: lowercase, newlines/tabs to spaces, collapse
runs of spaces, trim. -/
def cleanTextForFingerprint (text : String) : String :=
  let lowered := toLowerStr text
  let spaced := String.mk (lowered.data.map fun c =>
    if c = '\n' ∨ c = '\r' ∨ c = '\t' then ' ' else c)
  trimSpaceStr (String.mk (collapseSpacesAux false spaced.data))

/-- Definition `hash64ForRule`: the first eight MD5 bytes of the string, big-endian. -/
def hash64ForRule (s : String) : Nat := first8BE (md5Str s)

/-- Definition `FingerprintHTML`: length and hash of the stripped, cleaned text;
`(0, 0)` for empty input. -/
def FingerprintHTML (html : String) : HtmlFingerprint :=
  if html.utf8ByteSize = 0 then ⟨0, 0⟩
  else
    let cleaned := cleanTextForFingerprint (extractSimpleText html)
    ⟨cleaned.utf8ByteSize, hash64ForRule cleaned⟩

/-- Definition `perURLInfo` of rule_cluster.go. -/
structure PerURLInfo where
  FR : FetchResult
  Origin : String
  HtmlFP : HtmlFingerprint := ⟨0, 0⟩
  IsHTML : Bool
deriving DecidableEq

/-- A single-quote string, used in the login keyword list. -/
def sq : String := String.mk [Char.ofNat 39]

/-- Definition `containsAny` of rule_cluster.go. -/
def containsAny (text : String) (keywords : List String) : Bool :=
  keywords.any fun k => containsSub text k

/-- Keyword seed of `containsErrorKeywords` (verbatim from the source). -/
def errorKeywords : List String :=
  ["404", "page not found", "页面不存在", "not found",
   "error", "错误", "无法找到", "找不到"]

/-- Definition `containsErrorKeywords`. -/
def containsErrorKeywords (html : String) : Bool := containsAny html errorKeywords

/-- Keyword seed of `containsLoginKeywords` (verbatim from the source; the
final two entries are `type="password"` and `type=` followed by
single-quoted `password`). -/
def loginKeywords : List String :=
  ["登录", "登陆", "login", "sign in", "signin",
   "password", "密码", "username", "用户名",
   "type=\"password\"", "type=" ++ sq ++ "password" ++ sq]

/-- Definition `containsLoginKeywords`. -/
def containsLoginKeywords (html : String) : Bool := containsAny html loginKeywords

/-- Keyword seed of `containsWAFKeywords` (verbatim from the source). -/
def wafKeywords : List String :=
  ["access denied", "防火墙", "安全验证", "滑动验证",
   "checking your browser", "cloudflare", "waf",
   "security check", "安全检查", "验证码"]

/-- Definition `containsWAFKeywords`. -/
def containsWAFKeywords (html : String) : Bool := containsAny html wafKeywords

/-- Keyword seed of `containsMaintenanceKeywords` (verbatim from the
source). -/
def maintenanceKeywords : List String :=
  ["维护中", "升级中", "maintenance", "under maintenance",
   "service unavailable", "系统维护", "网站维护",
   "upgrading", "升级", "维护"]

/-- Definition `containsMaintenanceKeywords`. -/
def containsMaintenanceKeywords (html : String) : Bool :=
  containsAny html maintenanceKeywords

/-- Definition `sanitizeForClusterID`: keep alphanumerics, `-`, `_`; map `:` and `/`
to `_`; drop everything else. -/
def sanitizeForClusterID (s : String) : String :=
  String.mk (s.data.foldr
    (fun r acc =>
      if ('a' ≤ r ∧ r ≤ 'z') ∨ ('A' ≤ r ∧ r ≤ 'Z') ∨ ('0' ≤ r ∧ r ≤ '9') ∨
          r = '-' ∨ r = '_' then r :: acc
      else if r = ':' ∨ r = '/' then '_' :: acc
      else acc) [])

/-- Definition `getPath`: the path component of a URL (Go falls back to the whole
string only when `url.Parse` errors, which the modelled inputs never do). -/
def getPath (u : String) : String := urlPath u

/-- Comparator of `selectCanonicalByPath`: shorter path first (by byte
length, as Go `len`), then smaller id. -/
def selPathLess (x y : PerURLInfo) : Bool :=
  let px := (getPath x.FR.FinalURL).utf8ByteSize
  let py := (getPath y.FR.FinalURL).utf8ByteSize
  if px ≠ py then decide (px < py) else decide (x.FR.ID < y.FR.ID)

/-- Definition `selectCanonicalByPath`: sort by the path comparator and take the first
id (0 for an empty list). -/
def selectCanonicalByPath (urls : List PerURLInfo) : Nat :=
  (((List.insertionSort (fun a b => selPathLess a b = true) urls).head?).map
    fun i => i.FR.ID).getD 0

/-- Comparator of `selectCanonicalForRedirect`: 2xx status first, then
shorter path, then smaller id. -/
def selRedirLess (x y : PerURLInfo) : Bool :=
  let is2xxX := decide (200 ≤ x.FR.StatusCode ∧ x.FR.StatusCode < 300)
  let is2xxY := decide (200 ≤ y.FR.StatusCode ∧ y.FR.StatusCode < 300)
  if is2xxX ≠ is2xxY then is2xxX
  else
    let px := (getPath x.FR.FinalURL).utf8ByteSize
    let py := (getPath y.FR.FinalURL).utf8ByteSize
    if px ≠ py then decide (px < py) else decide (x.FR.ID < y.FR.ID)

/-- Definition `selectCanonicalForRedirect`. -/
def selectCanonicalForRedirect (urls : List PerURLInfo) : Nat :=
  (((List.insertionSort (fun a b => selRedirLess a b = true) urls).head?).map
    fun i => i.FR.ID).getD 0

/-- Definition `normalizePath`: strip index suffixes, empty becomes `/`, non-root
paths get a trailing `/`. -/
def normalizePath (u : String) : String :=
  let path := urlPath u
  let p₁ := trimSuffixStr path "/index.html"
  let p₂ := trimSuffixStr p₁ "/index.htm"
  let p₃ := trimSuffixStr p₂ "/index.php"
  let p₄ := trimSuffixStr p₃ "/index"
  if p₄ = "" then "/"
  else if p₄ ≠ "/" ∧ ¬ hasSuffixStr p₄ "/" then p₄ ++ "/"
  else p₄

/-- Definition `isLengthSimilar`: collect fingerprint lengths above zero; all-zero
groups count as similar, a single collected length does not, otherwise the
min/max ratio must be at least 0.8, decided exactly as `4·max ≤ 5·min`.
(The source sorts the collected lengths and reads the ends, i.e. their
minimum and maximum; `isLengthSimilar_iff` restates the test as the claim
phrases it.) -/
def isLengthSimilar (group : List PerURLInfo) : Bool :=
  if group.length < 2 then false
  else
    let lengths := (group.map fun info => info.HtmlFP.Length).filter fun n => 0 < n
    if lengths.length = 0 then true
    else if lengths.length < 2 then false
    else
      let sorted := List.insertionSort (· ≤ ·) lengths
      let mn := sorted.headD 0
      let mx := sorted.getLastD 0
      if mx = 0 then true
      else decide (4 * mx ≤ 5 * mn)

/-- The assignment map of the classifier, keyed by fetch-result id. -/
abbrev AssignMap : Type := List (Nat × RuleAssignment)

/-- First binding for a key in an association list (Go map read). -/
def lookupA {κ β : Type} [DecidableEq κ] (m : List (κ × β)) (k : κ) : Option β :=
  (m.find? fun p => p.1 = k).map Prod.snd

/-- Write an assignment only when none exists for the id yet (the
first-writer-wins guard every keyword rule uses). -/
def assignIfAbsent (m : AssignMap) (id : Nat) (ra : RuleAssignment) : AssignMap :=
  match lookupA m id with
  | some _ => m
  | none => m ++ [(id, ra)]

/-- Group candidate pages by fingerprint hash (insertion-ordered). -/
def fpGroupsOf (pages : List PerURLInfo) : List (Nat × List PerURLInfo) :=
  pages.foldl (fun m info => appendAt m info.HtmlFP.Hash info) []

/-- The shared emission loop of the fingerprint rules (E3/L1/W1/M1/T1):
keep groups of at least two, require the length-similar test, build the
`{prefix}-{origin}-{hash&0xFFFF:hex}` id, pick the canonical by path, and
assign first-writer-wins. -/
def emitFpGroups (idPre : String) (priority : Nat) (originSanitized : String)
    (groups : List (Nat × List PerURLInfo)) (m : AssignMap) : AssignMap :=
  groups.foldl
    (fun m g =>
      if g.2.length < 2 then m
      else if ¬ isLengthSimilar g.2 then m
      else
        let clusterID := idPre ++ "-" ++ originSanitized ++ "-" ++ natToHex (g.1 &&& 0xFFFF)
        let canonicalID := selectCanonicalByPath g.2
        g.2.foldl
          (fun m₂ info =>
            assignIfAbsent m₂ info.FR.ID
              ⟨clusterID, decide (info.FR.ID = canonicalID), priority⟩) m) m

/-- Rule E1: all 5xx pages of one origin form one `err5xx-` cluster. -/
def applyRuleE1 (originMap : List (String × List PerURLInfo)) (m : AssignMap) :
    AssignMap :=
  originMap.foldl
    (fun m okv =>
      let err5xx := okv.2.filter fun info =>
        decide (500 ≤ info.FR.StatusCode ∧ info.FR.StatusCode < 600)
      if err5xx.length < 2 then m
      else
        let clusterID := "err5xx-" ++ sanitizeForClusterID okv.1
        let canonicalID := selectCanonicalByPath err5xx
        err5xx.foldl
          (fun m₂ info =>
            assignIfAbsent m₂ info.FR.ID
              ⟨clusterID, decide (info.FR.ID = canonicalID), 1⟩) m) m

/-- Rule E3: 404/401/403 pages, plus 200 HTML pages containing error
keywords, grouped by fingerprint hash (non-HTML candidates under hash 0),
filtered by the length-similar test. -/
def applyRuleE3 (originMap : List (String × List PerURLInfo)) (m : AssignMap) :
    AssignMap :=
  originMap.foldl
    (fun m okv =>
      let errorPages := okv.2.filter fun info =>
        decide (info.FR.StatusCode = 404 ∨ info.FR.StatusCode = 401 ∨
          info.FR.StatusCode = 403) ||
        (decide (info.FR.StatusCode = 200) && info.IsHTML &&
          decide (0 < info.FR.RawHTML.utf8ByteSize) &&
          containsErrorKeywords (toLowerStr info.FR.RawHTML))
      if errorPages.length < 2 then m
      else
        let fpGroups := errorPages.foldl
          (fun g info =>
            if info.IsHTML then appendAt g info.HtmlFP.Hash info
            else appendAt g 0 info) []
        emitFpGroups "errtpl" 3 (sanitizeForClusterID okv.1) fpGroups m) m

/-- Rule L1: HTML pages containing login keywords, by fingerprint. -/
def applyRuleL1 (originMap : List (String × List PerURLInfo)) (m : AssignMap) :
    AssignMap :=
  originMap.foldl
    (fun m okv =>
      let loginPages := okv.2.filter fun info =>
        info.IsHTML && decide (0 < info.FR.RawHTML.utf8ByteSize) &&
          containsLoginKeywords (toLowerStr info.FR.RawHTML)
      if loginPages.length < 2 then m
      else emitFpGroups "loginwall" 4 (sanitizeForClusterID okv.1)
        (fpGroupsOf loginPages) m) m

/-- Rule W1: HTML pages containing WAF keywords, by fingerprint. -/
def applyRuleW1 (originMap : List (String × List PerURLInfo)) (m : AssignMap) :
    AssignMap :=
  originMap.foldl
    (fun m okv =>
      let wafPages := okv.2.filter fun info =>
        info.IsHTML && decide (0 < info.FR.RawHTML.utf8ByteSize) &&
          containsWAFKeywords (toLowerStr info.FR.RawHTML)
      if wafPages.length < 2 then m
      else emitFpGroups "waf" 5 (sanitizeForClusterID okv.1)
        (fpGroupsOf wafPages) m) m

/-- Rule M1: HTML pages containing maintenance keywords, by fingerprint. -/
def applyRuleM1 (originMap : List (String × List PerURLInfo)) (m : AssignMap) :
    AssignMap :=
  originMap.foldl
    (fun m okv =>
      let maintPages := okv.2.filter fun info =>
        info.IsHTML && decide (0 < info.FR.RawHTML.utf8ByteSize) &&
          containsMaintenanceKeywords (toLowerStr info.FR.RawHTML)
      if maintPages.length < 2 then m
      else emitFpGroups "maint" 6 (sanitizeForClusterID okv.1)
        (fpGroupsOf maintPages) m) m

/-- Rule T1: thin HTML pages (2xx/401/403, below 1 KiB, or a computed
fingerprint shorter than `MinTextLength`), by fingerprint. -/
def applyRuleT1 (originMap : List (String × List PerURLInfo)) (m : AssignMap) :
    AssignMap :=
  originMap.foldl
    (fun m okv =>
      let thinPages := okv.2.filter fun info =>
        decide ((200 ≤ info.FR.StatusCode ∧ info.FR.StatusCode < 300) ∨
          info.FR.StatusCode = 401 ∨ info.FR.StatusCode = 403) &&
        info.IsHTML &&
        (decide (info.FR.RawHTML.utf8ByteSize < 1024) ||
          decide (0 < info.HtmlFP.Length ∧ info.HtmlFP.Length < MinTextLength))
      if thinPages.length < 2 then m
      else emitFpGroups "thin" 7 (sanitizeForClusterID okv.1)
        (fpGroupsOf thinPages) m) m

/-- Rule R1: pages sharing a final URL; only ids still unassigned are
grouped, at least two of them are required, and the id is
`redir-{md5(finalURL)[:8]:hex}`. -/
def applyRuleR1 (finalURLMap : List (String × List PerURLInfo)) (m : AssignMap) :
    AssignMap :=
  finalURLMap.foldl
    (fun m fkv =>
      if fkv.2.length < 2 then m
      else
        let unassigned := fkv.2.filter fun info => (lookupA m info.FR.ID).isNone
        if unassigned.length < 2 then m
        else
          let clusterID := "redir-" ++ bytesToHex ((md5Str fkv.1).take 8)
          let canonicalID := selectCanonicalForRedirect unassigned
          unassigned.foldl
            (fun m₂ info =>
              m₂ ++ [(info.FR.ID, ⟨clusterID, decide (info.FR.ID = canonicalID), 8⟩)]) m) m

/-- Rule U1: group by normalized path within an origin; only still
unassigned ids, at least two of them. -/
def applyRuleU1 (originMap : List (String × List PerURLInfo)) (m : AssignMap) :
    AssignMap :=
  originMap.foldl
    (fun m okv =>
      let pathGroups := okv.2.foldl
        (fun g info =>
          let np₀ := normalizePath info.FR.FinalURL
          let np := if np₀ = "" then normalizePath info.FR.NormalizedURL else np₀
          appendAt g np info) []
      pathGroups.foldl
        (fun m pkv =>
          if pkv.2.length < 2 then m
          else
            let unassigned := pkv.2.filter fun info => (lookupA m info.FR.ID).isNone
            if unassigned.length < 2 then m
            else
              let clusterID := "urlcanon-" ++ sanitizeForClusterID okv.1 ++ "-" ++
                sanitizeForClusterID pkv.1
              let canonicalID := selectCanonicalByPath unassigned
              unassigned.foldl
                (fun m₂ info =>
                  m₂ ++ [(info.FR.ID, ⟨clusterID, decide (info.FR.ID = canonicalID), 9⟩)]) m) m) m

/-- Build the `perURLInfo` for one fetch result: origin from the final URL
with fallback to the normalized URL, dropped when both are empty; the HTML
fingerprint is computed for HTML pages with a body. -/
def perURLInfoOf (fr : FetchResult) : Option PerURLInfo :=
  let origin₀ := OriginKey fr.FinalURL
  let origin := if origin₀ = "" then OriginKey fr.NormalizedURL else origin₀
  if origin = "" then none
  else
    let isHTML := containsSub (toLowerStr fr.ContentType) "text/html"
    let fp := if isHTML ∧ 0 < fr.RawHTML.utf8ByteSize then FingerprintHTML fr.RawHTML
      else (⟨0, 0⟩ : HtmlFingerprint)
    some ⟨fr, origin, fp, isHTML⟩

/-- The per-origin index of `BuildRuleAssignments`. -/
def originMapOf (frs : List FetchResult) : List (String × List PerURLInfo) :=
  frs.foldl
    (fun m fr =>
      match perURLInfoOf fr with
      | none => m
      | some info => appendAt m info.Origin info) []

/-- The per-final-URL index of `BuildRuleAssignments`. -/
def finalURLMapOf (frs : List FetchResult) : List (String × List PerURLInfo) :=
  frs.foldl
    (fun m fr =>
      match perURLInfoOf fr with
      | none => m
      | some info => appendAt m fr.FinalURL info) []

/-- Definition `BuildRuleAssignments`: run the eight rules in their strict order. -/
def BuildRuleAssignments (frs : List FetchResult) : AssignMap :=
  let om := originMapOf frs
  let fm := finalURLMapOf frs
  applyRuleU1 om (applyRuleR1 fm (applyRuleT1 om (applyRuleM1 om
    (applyRuleW1 om (applyRuleL1 om (applyRuleE3 om (applyRuleE1 om [])))))))

end WebsiteSimilar

namespace WebsiteSimilar

/-! ## Feature extractor: text SimHash (features source file) -/

/-- FNV offset basis `0xCBF29CE484222325`. -/
def fnvOffsetBasis : Nat := 14695981039346656037

/-- FNV prime `0x100000001B3`. -/
def fnvPrime : Nat := 1099511628211

/-- Definition `hash64`: the FNV-1a-style 64-bit hash.  In Go,
`for _, c := range s` iterates the runes, so the accumulator absorbs one *code point*
per step (`h ^= uint64(c); h *= prime`), with `uint64` overflow on the
multiplication. -/
def hash64 (s : String) : Nat :=
  s.data.foldl (fun h c => (h ^^^ c.toNat) * fnvPrime % U64) fnvOffsetBasis

/-- The per-bit accumulator of `computeSimHash`: over all tokens, add one
when bit `i` of the token hash is set, subtract one otherwise.  (The source
keeps an array of 64 accumulators updated token by token; per bit the
update sequence is identical.) -/
def simHashBit (tokens : List String) (i : Nat) : Int :=
  tokens.foldl
    (fun acc t => if hash64 t &&& (1 <<< i) ≠ 0 then acc + 1 else acc - 1) 0

/-- Definition `computeSimHash`: zero for no tokens, else the fingerprint whose bit
`i` is set exactly when the accumulator for bit `i` is positive. -/
def computeSimHash (text : String) : Nat :=
  let tokens := fields text
  if tokens.length = 0 then 0
  else
    (List.range 64).foldl
      (fun fingerprint i =>
        if 0 < simHashBit tokens i then fingerprint ||| (1 <<< i) else fingerprint)
      0

/-! ## Report builder (report source file) -/

/-- Definition `Options`, reduced to the only field `BuildReport` reads. -/
structure Options where
  SimThreshold : ℚ := 0.85

/-- Definition `URLReport` of types.go; the similarity fields are Go `float64`,
modelled over `ℝ` because they carry cosine values. -/
structure URLReport where
  ID : Nat := 0
  URL : String := ""
  NormalizedURL : String := ""
  FinalURL : String := ""
  RedirectChain : List String := []
  StatusCode : Nat := 0
  ContentLength : Int := 0
  ContentType : String := ""
  Error : String := ""
  Title : String := ""
  ClusterID : String := ""
  IsCanonical : Bool := false
  SimilarityToCanonical : ℝ := 0
  ContentSim : ℝ := 0
  StructureSim : ℝ := 0
  VisualSim : ℝ := 0
  BehaviorSim : ℝ := 0

/-- Definition `ClusterInfo` of types.go. -/
structure ClusterInfo where
  ClusterID : String
  CanonicalURL : String
  MemberIDs : List Nat

/-- Definition `MetaInfo` of types.go.  `GeneratedAt` is wall-clock time in Go and is
modelled as the empty string. -/
structure MetaInfo where
  TotalURLs : Nat
  EligibleHTMLURLs : Nat
  EligibleNonHTMLURLs : Nat
  TotalClusters : Nat
  SimThreshold : ℚ
  GeneratedAt : String

/-- Definition `FullReport` of types.go. -/
structure FullReport where
  URLs : List URLReport
  Clusters : List ClusterInfo
  Meta : MetaInfo

/-- Definition `CalculateSimilarities` of similarity.go: the four scores and their
display total. -/
noncomputable def CalculateSimilarities (a b : PageFeatures) :
    ℝ × ℝ × ℝ × ℝ × ℝ :=
  let contentSim : ℝ := (simContent a b : ℝ)
  let structureSim := simStructure a b
  let visualSim : ℝ := (simVisual a b : ℝ)
  let behaviorSim := simBehavior a b
  (contentSim, structureSim, visualSim, behaviorSim,
    totalSim contentSim structureSim visualSim behaviorSim)

/-- Insert-or-replace into an association list (Go map write). -/
def insertReplace {κ β : Type} [DecidableEq κ] (m : List (κ × β)) (k : κ)
    (v : β) : List (κ × β) :=
  match m with
  | [] => [(k, v)]
  | (k₁, v₁) :: rest =>
    if k₁ = k then (k₁, v) :: rest else (k₁, v₁) :: insertReplace rest k v

/-- The page index of `BuildReport` (`pageMap`), keyed by id. -/
def pageMapOf (pwf : List PageWithFeatures) : List (Nat × PageWithFeatures) :=
  pwf.foldl (fun m p => insertReplace m p.ID p) []

/-- The member-to-cluster index of `BuildReport` (`clusterByPageID`). -/
def clusterByPageIDOf (ccs : List ClusterGroup) : List (Nat × String) :=
  ccs.foldl
    (fun m c => c.Members.foldl (fun m₂ mem => insertReplace m₂ mem.ID c.ClusterID) m)
    []

/-- The cluster-to-canonical index of `BuildReport`
(`canonicalByCluster`). -/
def canonicalByClusterOf (ccs : List ClusterGroup) : List (String × Nat) :=
  ccs.foldl
    (fun m c =>
      match c.Canonical with
      | some can => insertReplace m c.ClusterID can.ID
      | none => m) []

/-- The `ClusterInfo` list `BuildReport` emits. -/
def clusterInfosOf (ccs : List ClusterGroup) : List ClusterInfo :=
  ccs.map fun c =>
    { ClusterID := c.ClusterID
      CanonicalURL := (c.Canonical.map fun can => can.FinalURL).getD ""
      MemberIDs := c.Members.map fun mem => mem.ID }

/-- Lookup of `contentClusters[clusterID]`. -/
def findClusterByID (ccs : List ClusterGroup) (cid : String) :
    Option ClusterGroup :=
  ccs.find? fun c => c.ClusterID = cid

/-- The fields every `URLReport` copies from its fetch result. -/
def baseReport (fr : FetchResult) : URLReport :=
  { ID := fr.ID
    URL := fr.RawURL
    NormalizedURL := fr.NormalizedURL
    FinalURL := fr.FinalURL
    RedirectChain := fr.RedirectChain
    StatusCode := fr.StatusCode
    ContentLength := fr.ContentLength
    ContentType := fr.ContentType
    Error := fr.Error
    Title := fr.Title }

/-- The fallback of `BuildReport` when no content cluster applies: take the
rule assignment if one exists, else an un-clustered singleton entry. -/
def reportFallback (ras : AssignMap) (fr : FetchResult) : URLReport :=
  match lookupA ras fr.ID with
  | some ra =>
    { baseReport fr with ClusterID := ra.ClusterID, IsCanonical := ra.IsCanonical }
  | none => { baseReport fr with ClusterID := "", IsCanonical := true }

/-- The per-page assignment logic of `BuildReport`: a page with features
that belongs to a content cluster takes the cluster id, canonical flag and
similarity scores against the cluster canonical; otherwise the rule
assignment or the singleton fallback applies. -/
noncomputable def reportEntry (pwf : List PageWithFeatures)
    (ccs : List ClusterGroup) (ras : AssignMap) (fr : FetchResult) : URLReport :=
  match lookupA (pageMapOf pwf) fr.ID with
  | none => reportFallback ras fr
  | some page =>
    match page.Features with
    | none => reportFallback ras fr
    | some f =>
      match lookupA (clusterByPageIDOf ccs) fr.ID with
      | none => reportFallback ras fr
      | some clusterID =>
        let canonicalID := (lookupA (canonicalByClusterOf ccs) clusterID).getD 0
        let withCluster :=
          { baseReport fr with
              ClusterID := clusterID
              IsCanonical := decide (fr.ID = canonicalID) }
        match findClusterByID ccs clusterID with
        | none => withCluster
        | some cluster =>
          match cluster.Canonical with
          | none => withCluster
          | some can =>
            match can.Features with
            | none => withCluster
            | some cf =>
              let s := CalculateSimilarities f cf
              { withCluster with
                  ContentSim := s.1
                  StructureSim := s.2.1
                  VisualSim := s.2.2.1
                  BehaviorSim := s.2.2.2.1
                  SimilarityToCanonical := s.2.2.2.2 }

/-- Definition `BuildReport` of the report source file: one entry per fetch result in
input order, the cluster list, and the meta block (`EligibleHTMLURLs`
counts every page whose features were computed, whatever its type). -/
noncomputable def BuildReport (frs : List FetchResult)
    (pwf : List PageWithFeatures) (ccs : List ClusterGroup) (ras : AssignMap)
    (opts : Options) : FullReport :=
  { URLs := frs.map (reportEntry pwf ccs ras)
    Clusters := clusterInfosOf ccs
    Meta :=
      { TotalURLs := frs.length
        EligibleHTMLURLs :=
          (frs.filter fun fr =>
            match lookupA (pageMapOf pwf) fr.ID with
            | some page => page.Features.isSome
            | none => false).length
        EligibleNonHTMLURLs := 0
        TotalClusters := ccs.length
        SimThreshold := opts.SimThreshold
        GeneratedAt := "" } }

end WebsiteSimilar

namespace WebsiteSimilar

/-! ## Claim-side contrast definitions

These definitions follow the wording of the *specification* (not the source) and
exist only to be compared against the definitions above. -/

/-- Stated from the spec for comparison: an FNV-1a hash iterated
byte-by-byte (each byte XORed into the accumulator, then multiplied by the
prime), as the specification describes `hash64`. -/
def fnv1aBytes (bytes : List Nat) : Nat :=
  bytes.foldl (fun h b => (h ^^^ b) * 0x100000001B3 % U64) 0xCBF29CE484222325

/-- Stated from the amended claim for comparison: an FNV-1a-style hash
iterated code-point-by-code-point (the value of each code point XORed into the
accumulator, then multiplied by the prime). -/
def fnv1aCodepoints (cps : List Nat) : Nat :=
  cps.foldl (fun h c => (h ^^^ c) * 0x100000001B3 % U64) 0xCBF29CE484222325

/-- Stated from the spec for comparison: the category-dispatching
pre-filter the specification describes for `quickSimHashCheck` (categories
must match; Html/Text by SimHash distance and length ratio; Image by
non-zero perceptual hashes within distance 15; Binary by equal lengths;
anything else skipped). -/
def specQuickCheck (a b : PageFeatures) : Bool :=
  if a.Category ≠ b.Category then false
  else if a.Category = ContentCategoryHTML ∨ a.Category = ContentCategoryText then
    decide (HammingDistance64 a.TextSimHash b.TextSimHash ≤ 8) &&
      decide ((0.5 : ℚ) ≤
        ((min a.TextLength b.TextLength : ℕ) : ℚ) / ((max a.TextLength b.TextLength : ℕ) : ℚ))
  else if a.Category = ContentCategoryImage then
    decide (a.PHash ≠ 0 ∧ b.PHash ≠ 0) &&
      decide (HammingDistance64 a.PHash b.PHash ≤ 15)
  else if a.Category = ContentCategoryBinary then
    decide (a.TextLength = b.TextLength)
  else false

/-! ## Concrete instances used by counterexamples and witnesses -/

/-- Features of an HTML page (HTML extraction leaves `Category` at its zero
value) whose screenshot hash matches the image page below. -/
def cexHtmlPage : PageWithFeatures :=
  { ID := 1
    NormalizedURL := "http://a.com/x"
    FinalURL := "http://a.com/x"
    StatusCode := 200
    ContentType := "text/html"
    Features := some { TextSimHash := 3, TextLength := 400, PHash := 9 } }

/-- An image page on the same host whose perceptual hash equals the
screenshot hash of the HTML page. -/
def cexImagePage : PageWithFeatures :=
  { ID := 2
    NormalizedURL := "http://a.com/y"
    FinalURL := "http://a.com/y"
    StatusCode := 200
    ContentType := "image/png"
    ContentCategory := ContentCategoryImage
    Features := some
      { Category := ContentCategoryImage, TextSimHash := 0, TextLength := 700, PHash := 9 } }

/-- Two text pages that form one content cluster (identical SimHash, DOM
statistics and path map; text lengths 300 and 320). -/
def wit10a : PageWithFeatures :=
  { ID := 1
    NormalizedURL := "http://b.com/p"
    FinalURL := "http://b.com/p"
    StatusCode := 200
    Features := some
      { Category := ContentCategoryText, TextSimHash := 5, TextLength := 300,
        DOMNodeCount := 10, TextNodeCount := 5, TagCount := [("div", 3)],
        PathCount := [("html>body>div", 3)] } }

/-- The second page of the `wit10a` pair. -/
def wit10b : PageWithFeatures :=
  { ID := 2
    NormalizedURL := "http://b.com/q"
    FinalURL := "http://b.com/q"
    StatusCode := 200
    Features := some
      { Category := ContentCategoryText, TextSimHash := 5, TextLength := 320,
        DOMNodeCount := 10, TextNodeCount := 5, TagCount := [("div", 3)],
        PathCount := [("html>body>div", 3)] } }

/-- The cluster produced from the `wit10a`/`wit10b` pair. -/
def wit10grp : ClusterGroup :=
  (Cluster [wit10a, wit10b]).headD ⟨"", none, []⟩

/-- A 404 HTML page containing a login keyword. -/
def c3fr1 : FetchResult :=
  { ID := 1
    NormalizedURL := "http://a.com/a"
    FinalURL := "http://a.com/a"
    StatusCode := 404
    ContentType := "text/html"
    RawHTML := "<p>login</p>" }

/-- A second 404 HTML page with the same body. -/
def c3fr2 : FetchResult :=
  { ID := 2
    NormalizedURL := "http://a.com/b"
    FinalURL := "http://a.com/b"
    StatusCode := 404
    ContentType := "text/html"
    RawHTML := "<p>login</p>" }

/-- A 200 HTML page with the same body (so the same fingerprint), which
only the login rule can claim. -/
def c3fr3 : FetchResult :=
  { ID := 3
    NormalizedURL := "http://a.com/c"
    FinalURL := "http://a.com/c"
    StatusCode := 200
    ContentType := "text/html"
    RawHTML := "<p>login</p>" }

/-- The rule assignments of the three-page login example. -/
def c3assign : AssignMap := BuildRuleAssignments [c3fr1, c3fr2, c3fr3]

/-- How many pages an assignment map sends to a given cluster id. -/
def membersOfId (m : AssignMap) (cid : String) : Nat :=
  (m.filter fun p => p.2.ClusterID = cid).length

/-- The cluster id assigned to a page (empty when unassigned). -/
def assignedIdOf (m : AssignMap) (i : Nat) : String :=
  ((lookupA m i).map fun ra => ra.ClusterID).getD ""

/-- A fetch that failed: error set, status 0, no final URL, empty
category. -/
def c6fr1 : FetchResult :=
  { ID := 1, NormalizedURL := "http://a.com/x", Error := "request failed" }

/-- A second failed fetch on the same origin. -/
def c6fr2 : FetchResult :=
  { ID := 2, NormalizedURL := "http://a.com/y", Error := "request failed" }

/-- The rule assignments of the two failed fetches. -/
def c6assign : AssignMap := BuildRuleAssignments [c6fr1, c6fr2]

/-- A binary-category feature record of text length 500. -/
def cex5a : PageFeatures :=
  { Category := ContentCategoryBinary, TextSimHash := 10, TextLength := 500 }

/-- A binary-category feature record of text length 600 and the same
fingerprint. -/
def cex5b : PageFeatures :=
  { Category := ContentCategoryBinary, TextSimHash := 10, TextLength := 600 }

/-- Features of the report-builder witness page. -/
def wit4f : PageFeatures := { TextSimHash := 7, TextLength := 250 }

/-- A page that has features and is the canonical of its content cluster,
while also carrying a rule assignment. -/
def wit4page : PageWithFeatures :=
  { ID := 1
    RawURL := "http://w.com/a"
    NormalizedURL := "http://w.com/a"
    FinalURL := "http://w.com/a"
    StatusCode := 200
    Features := some wit4f }

/-- The content cluster containing `wit4page`. -/
def wit4grp : ClusterGroup :=
  { ClusterID := "cluster-00001", Canonical := some wit4page, Members := [wit4page] }

/-- A page without computed features that only a rule assigned. -/
def wit4fr2 : FetchResult :=
  { ID := 2, NormalizedURL := "http://w.com/b", FinalURL := "http://w.com/b",
    StatusCode := 302 }

/-- Rule assignments covering both witness pages (the one for page 1 must
be ignored by the report builder). -/
def wit4ras : AssignMap :=
  [(1, ⟨"urlcanon-w", true, 9⟩), (2, ⟨"redir-ab12", false, 8⟩)]

end WebsiteSimilar

namespace WebsiteSimilar

/-! ## Bridging lemmas: integer deciders against the real-valued scores -/

theorem dotQ_nil_left (vb : List ℚ) : dotQ [] vb = 0 := by
  simp [dotQ]

theorem dotQ_cons (x y : ℚ) (va vb : List ℚ) :
    dotQ (x :: va) (y :: vb) = x * y + dotQ va vb := by
  simp [dotQ]

theorem dotQ_cast : ∀ va vb : List Nat,
    dotQ (va.map (Nat.cast : Nat → ℚ)) (vb.map Nat.cast) = (dotN va vb : ℚ)
  | [], vb => by simp [dotQ, dotN]
  | a :: va, [] => by simp [dotQ, dotN]
  | a :: va, b :: vb => by
    have ih := dotQ_cast va vb
    simp [dotQ, dotN] at ih ⊢
    rw [ih]

theorem domVec_eq_cast (a : PageFeatures) :
    domVec a = (domVecN a).map (Nat.cast : Nat → ℚ) := by
  simp [domVec, domVecN]

theorem dotQ_domVec (a b : PageFeatures) :
    dotQ (domVec a) (domVec b) = (dotN (domVecN a) (domVecN b) : ℚ) := by
  rw [domVec_eq_cast, domVec_eq_cast, dotQ_cast]

theorem castSumMap {α : Type} (keys : List α) (f : α → Nat) :
    (keys.map fun k => ((f k : ℚ))).sum = ((keys.map f).sum : ℚ) := by
  induction keys with
  | nil => simp
  | cons k ks ih => simp [ih]

theorem pathFrac_den_pos (a b : PageFeatures) : 0 < (pathFrac a b).2 := by
  simp only [pathFrac]
  by_cases hemp : a.PathCount = [] ∨ b.PathCount = []
  · simp [hemp]
  · simp only [if_neg hemp]
    by_cases huni : (((a.PathCount.map Prod.fst) ++ (b.PathCount.map Prod.fst)).dedup.map
        fun k => max (tagGet a.PathCount k) (tagGet b.PathCount k)).sum = 0
    · simp [huni]
    · simp only [if_neg huni]
      exact Nat.pos_of_ne_zero huni

theorem simPath_eq (a b : PageFeatures) :
    simPath a b = ((pathFrac a b).1 : ℚ) / ((pathFrac a b).2 : ℚ) := rfl

end WebsiteSimilar

namespace WebsiteSimilar

theorem domVec_length (a : PageFeatures) : (domVec a).length = 7 := by
  simp [domVec]

theorem simDOMStats_zero (a b : PageFeatures)
    (h : dotN (domVecN a) (domVecN a) = 0 ∨ dotN (domVecN b) (domVecN b) = 0) :
    simDOMStats a b = 0 := by
  unfold simDOMStats cosineSimilarity
  rw [if_neg (by simp [domVec_length])]
  rw [if_pos]
  rcases h with h | h
  · exact Or.inl (by rw [dotQ_domVec, h]; norm_num)
  · exact Or.inr (by rw [dotQ_domVec, h]; norm_num)

theorem simDOMStats_pos_form (a b : PageFeatures)
    (hA : dotN (domVecN a) (domVecN a) ≠ 0)
    (hB : dotN (domVecN b) (domVecN b) ≠ 0) :
    simDOMStats a b = (dotN (domVecN a) (domVecN b) : ℝ) /
      (Real.sqrt (dotN (domVecN a) (domVecN a)) *
        Real.sqrt (dotN (domVecN b) (domVecN b))) := by
  unfold simDOMStats cosineSimilarity
  rw [if_neg (by simp [domVec_length])]
  rw [if_neg (by
    rw [dotQ_domVec, dotQ_domVec]
    push_neg
    exact ⟨by exact_mod_cast hA, by exact_mod_cast hB⟩)]
  rw [dotQ_domVec, dotQ_domVec, dotQ_domVec]
  push_cast
  rfl

theorem ratio_lt_three_tenths (mn mx : Nat) (hmx : 0 < mx) :
    ((mn : ℚ) / (mx : ℚ) < 0.3) ↔ 10 * mn < 3 * mx := by
  rw [div_lt_iff₀ (by exact_mod_cast hmx : (0 : ℚ) < (mx : ℚ))]
  constructor
  · intro h
    have hq : ((10 * mn : ℕ) : ℚ) < ((3 * mx : ℕ) : ℚ) := by push_cast; linarith
    exact_mod_cast hq
  · intro h
    have hq : ((10 * mn : ℕ) : ℚ) < ((3 * mx : ℕ) : ℚ) := by exact_mod_cast h
    push_cast at hq
    linarith

theorem content_final_iff (d : Nat) (hd : d < 16) :
    (97 * 16 ≤ 100 * (16 - d)) ↔ ((0.97 : ℚ) ≤ 1 - (d : ℚ) / 16) := by
  constructor
  · intro h
    have hq : ((97 * 16 : ℕ) : ℚ) ≤ ((100 * (16 - d) : ℕ) : ℚ) := by exact_mod_cast h
    rw [Nat.cast_mul, Nat.cast_mul, Nat.cast_sub (le_of_lt hd)] at hq
    push_cast at hq
    norm_num
    linarith
  · intro h
    norm_num at h
    have hq : ((97 * 16 : ℕ) : ℚ) ≤ ((100 * (16 - d) : ℕ) : ℚ) := by
      rw [Nat.cast_mul, Nat.cast_mul, Nat.cast_sub (le_of_lt hd)]
      push_cast
      linarith
    exact_mod_cast hq

theorem visual_final_iff (d num den : Nat) (hd : d < 20) (hden : 0 < den) :
    (num * 20 ≤ den * (20 - d)) ↔ ((num : ℚ) / den ≤ 1 - (d : ℚ) / 20) := by
  have hdenQ : (0 : ℚ) < (den : ℚ) := by exact_mod_cast hden
  rw [div_le_iff₀ hdenQ]
  constructor
  · intro h
    have hq : ((num * 20 : ℕ) : ℚ) ≤ ((den * (20 - d) : ℕ) : ℚ) := by exact_mod_cast h
    rw [Nat.cast_mul, Nat.cast_mul, Nat.cast_sub (le_of_lt hd)] at hq
    push_cast at hq
    nlinarith
  · intro h
    have hq : ((num * 20 : ℕ) : ℚ) ≤ ((den * (20 - d) : ℕ) : ℚ) := by
      rw [Nat.cast_mul, Nat.cast_mul, Nat.cast_sub (le_of_lt hd)]
      push_cast
      nlinarith
    exact_mod_cast hq

theorem contentGE_iff (a b : PageFeatures) :
    contentGE a b = true ↔ ContentSimThreshold ≤ simContent a b := by
  unfold contentGE simContent
  by_cases h0 : a.TextLength = 0 ∨ b.TextLength = 0
  · rw [if_pos h0, if_pos h0]
    simp [ContentSimThreshold]
    norm_num
  · rw [if_neg h0, if_neg h0]
    push_neg at h0
    have hmax : 0 < max a.TextLength b.TextLength :=
      lt_of_lt_of_le (Nat.pos_of_ne_zero h0.1) (le_max_left _ _)
    have hguard := ratio_lt_three_tenths (min a.TextLength b.TextLength)
      (max a.TextLength b.TextLength) hmax
    by_cases hr : 10 * min a.TextLength b.TextLength < 3 * max a.TextLength b.TextLength
    · rw [if_pos hr, if_pos (hguard.mpr hr)]
      simp [ContentSimThreshold]
      norm_num
    · rw [if_neg hr, if_neg (fun h => hr (hguard.mp h))]
      by_cases hd : 16 ≤ HammingDistance64 a.TextSimHash b.TextSimHash
      · rw [if_pos hd, if_pos hd]
        simp [ContentSimThreshold]
        norm_num
      · rw [if_neg hd, if_neg hd]
        push_neg at hd
        rw [decide_eq_true_iff, ContentSimThreshold]
        exact content_final_iff _ hd

theorem visualGE_iff (a b : PageFeatures) (num den : Nat) (hnum : 0 < num)
    (hden : 0 < den) :
    visualGE a b num den = true ↔ ((num : ℚ) / den ≤ simVisual a b) := by
  unfold visualGE simVisual
  have hfrac : (0 : ℚ) < (num : ℚ) / den := by
    apply div_pos <;> exact_mod_cast ‹_›
  by_cases h0 : a.PHash = 0 ∨ b.PHash = 0
  · rw [if_pos h0, if_pos h0]
    simp
    linarith
  · rw [if_neg h0, if_neg h0]
    by_cases hd : 20 ≤ HammingDistance64 a.PHash b.PHash
    · rw [if_pos hd, if_pos hd]
      simp
      linarith
    · rw [if_neg hd, if_neg hd]
      push_neg at hd
      rw [decide_eq_true_iff]
      exact visual_final_iff _ _ _ hd hden

end WebsiteSimilar

namespace WebsiteSimilar

theorem nat_ineq_17_10 (i u : Nat) (hu : 0 < u) :
    ((1.7 : ℝ) - (i : ℝ) / (u : ℝ) ≤ 0) ↔ 17 * u ≤ 10 * i := by
  have huR : (0 : ℝ) < (u : ℝ) := by exact_mod_cast hu
  rw [sub_nonpos, le_div_iff₀ huR]
  constructor
  · intro h
    have hq : ((17 * u : ℕ) : ℝ) ≤ ((10 * i : ℕ) : ℝ) := by push_cast; nlinarith
    exact_mod_cast hq
  · intro h
    have hq : ((17 * u : ℕ) : ℝ) ≤ ((10 * i : ℕ) : ℝ) := by exact_mod_cast h
    push_cast at hq
    nlinarith

theorem ratio_cos_iff (i u nA nB dt : Nat) (hu : 0 < u) (hA : 0 < nA)
    (hB : 0 < nB) :
    ((if 17 * u ≤ 10 * i then true
      else decide ((17 * u - 10 * i) ^ 2 * (nA * nB) ≤ 100 * u ^ 2 * dt ^ 2)) = true) ↔
      ((1.7 : ℝ) - (i : ℝ) / (u : ℝ) ≤
        (dt : ℝ) / (Real.sqrt nA * Real.sqrt nB)) := by
  have hAR : (0 : ℝ) < (nA : ℝ) := by exact_mod_cast hA
  have hBR : (0 : ℝ) < (nB : ℝ) := by exact_mod_cast hB
  have huR : (0 : ℝ) < (u : ℝ) := by exact_mod_cast hu
  have hS : (0 : ℝ) < Real.sqrt nA * Real.sqrt nB :=
    mul_pos (Real.sqrt_pos.mpr hAR) (Real.sqrt_pos.mpr hBR)
  have hSsq : (Real.sqrt nA * Real.sqrt nB) ^ 2 = (nA : ℝ) * (nB : ℝ) := by
    rw [mul_pow, Real.sq_sqrt (le_of_lt hAR), Real.sq_sqrt (le_of_lt hBR)]
  have hcos : (0 : ℝ) ≤ (dt : ℝ) / (Real.sqrt nA * Real.sqrt nB) :=
    div_nonneg (by positivity) (le_of_lt hS)
  by_cases hr : 17 * u ≤ 10 * i
  · rw [if_pos hr]
    have hneg : (1.7 : ℝ) - (i : ℝ) / (u : ℝ) ≤ 0 := (nat_ineq_17_10 _ _ hu).mpr hr
    simp only [true_iff]
    linarith
  · rw [if_neg hr, decide_eq_true_iff]
    push_neg at hr
    have hX : (1.7 : ℝ) - (i : ℝ) / (u : ℝ) =
        ((17 * u - 10 * i : ℕ) : ℝ) / (10 * (u : ℝ)) := by
      rw [Nat.cast_sub (le_of_lt hr)]
      push_cast
      field_simp
      ring
    have hXpos : (0 : ℝ) < ((17 * u - 10 * i : ℕ) : ℝ) / (10 * (u : ℝ)) := by
      apply div_pos
      · exact_mod_cast Nat.sub_pos_of_lt hr
      · linarith
    rw [hX, le_div_iff₀ hS]
    have hkey : (((17 * u - 10 * i : ℕ) : ℝ) / (10 * (u : ℝ)) *
        (Real.sqrt nA * Real.sqrt nB)) ^ 2 =
        ((17 * u - 10 * i : ℕ) : ℝ) ^ 2 * ((nA : ℝ) * (nB : ℝ)) / (100 * (u : ℝ) ^ 2) := by
      rw [mul_pow, hSsq, div_pow]
      ring
    constructor
    · intro h
      have h3 : (((17 * u - 10 * i) ^ 2 * (nA * nB) : ℕ) : ℝ) ≤
          ((100 * u ^ 2 * dt ^ 2 : ℕ) : ℝ) := by exact_mod_cast h
      push_cast at h3
      have hsq : (((17 * u - 10 * i : ℕ) : ℝ) / (10 * (u : ℝ)) *
          (Real.sqrt nA * Real.sqrt nB)) ^ 2 ≤ ((dt : ℝ)) ^ 2 := by
        rw [hkey, div_le_iff₀ (by positivity)]
        nlinarith
      exact le_of_pow_le_pow_left₀ two_ne_zero (by positivity) hsq
    · intro h
      have hsq := pow_le_pow_left₀ (le_of_lt (mul_pos hXpos hS)) h 2
      rw [hkey, div_le_iff₀ (by positivity)] at hsq
      have h3 : (((17 * u - 10 * i) ^ 2 * (nA * nB) : ℕ) : ℝ) ≤
          ((100 * u ^ 2 * dt ^ 2 : ℕ) : ℝ) := by
        push_cast
        nlinarith
      exact_mod_cast h3

theorem structGE_iff (a b : PageFeatures) :
    structGE a b = true ↔ (StructureSimThreshold : ℝ) ≤ simStructure a b := by
  have hu : 0 < (pathFrac a b).2 := pathFrac_den_pos a b
  have hSS : ((StructureSimThreshold : ℚ) : ℝ) ≤ simStructure a b ↔
      (1.7 - ((pathFrac a b).1 : ℝ) / ((pathFrac a b).2 : ℝ)) ≤ simDOMStats a b := by
    unfold simStructure
    rw [simPath_eq]
    simp only [StructureSimThreshold]
    push_cast
    constructor <;> intro h <;> linarith
  rw [hSS]
  simp only [structGE]
  rw [if_neg (by simp [domVecN])]
  by_cases hzero : dotN (domVecN a) (domVecN a) = 0 ∨ dotN (domVecN b) (domVecN b) = 0
  · rw [if_pos hzero, simDOMStats_zero a b hzero, decide_eq_true_iff]
    exact (nat_ineq_17_10 _ _ hu).symm
  · rw [if_neg hzero]
    push_neg at hzero
    rw [simDOMStats_pos_form a b hzero.1 hzero.2]
    exact ratio_cos_iff _ _ _ _ _ hu (Nat.pos_of_ne_zero hzero.1)
      (Nat.pos_of_ne_zero hzero.2)

end WebsiteSimilar

namespace WebsiteSimilar

/-- C1: `IsDuplicate(a, b)` returns true iff either `simContent ≥ 0.97` and
(`simStructure ≥ 0.85` or `simVisual ≥ 0.85`), or `simVisual ≥ 0.99`; the
predicate is a function of the three scores alone, so `totalSim` is never
consulted. -/
theorem isDuplicate_iff (a b : PageFeatures) :
    IsDuplicate a b = true ↔
      (((0.97 : ℚ) ≤ simContent a b ∧
        ((0.85 : ℝ) ≤ simStructure a b ∨ (0.85 : ℚ) ≤ simVisual a b)) ∨
      (0.99 : ℚ) ≤ simVisual a b) := by
  unfold IsDuplicate
  simp only [Bool.or_eq_true, Bool.and_eq_true]
  rw [contentGE_iff, structGE_iff,
    visualGE_iff a b 85 100 (by norm_num) (by norm_num),
    visualGE_iff a b 99 100 (by norm_num) (by norm_num)]
  norm_num [ContentSimThreshold, StructureSimThreshold]

theorem ratio_ge_half_iff (mn mx : Nat) (hmx : 0 < mx) :
    ((0.5 : ℚ) ≤ (mn : ℚ) / (mx : ℚ)) ↔ mx ≤ 2 * mn := by
  rw [le_div_iff₀ (by exact_mod_cast hmx : (0 : ℚ) < (mx : ℚ))]
  constructor
  · intro h
    have hq : ((mx : ℕ) : ℚ) ≤ ((2 * mn : ℕ) : ℚ) := by push_cast; linarith
    exact_mod_cast hq
  · intro h
    have hq : ((mx : ℕ) : ℚ) ≤ ((2 * mn : ℕ) : ℚ) := by exact_mod_cast h
    push_cast at hq
    linarith

/-- C5 counterexample: two binary-category feature records with unequal
text lengths pass the pre-filter in the code even though the category-specific
test the specification describes rejects them. -/
theorem quickCheck_category_cex :
    quickSimHashCheck (some cex5a) (some cex5b) = true ∧
      specQuickCheck cex5a cex5b = false := by
  constructor <;> decide

/-- C5 amended: the pre-filter never inspects categories; on two non-nil
feature records it passes exactly when the SimHash hamming distance is at
most 8, both text lengths are positive, and the min/max length ratio is at
least one half; a nil record on either side fails. -/
theorem quickSimHashCheck_iff (a b : PageFeatures) (oa ob : Option PageFeatures) :
    (quickSimHashCheck (some a) (some b) = true ↔
      (HammingDistance64 a.TextSimHash b.TextSimHash ≤ QuickSimHashMaxDist ∧
        0 < a.TextLength ∧ 0 < b.TextLength ∧
        (0.5 : ℚ) ≤ ((min a.TextLength b.TextLength : ℕ) : ℚ) /
          ((max a.TextLength b.TextLength : ℕ) : ℚ))) ∧
    quickSimHashCheck none ob = false ∧ quickSimHashCheck oa none = false := by
  refine ⟨?_, by cases ob <;> rfl, by cases oa <;> rfl⟩
  show (let simHashDist := HammingDistance64 a.TextSimHash b.TextSimHash
    if QuickSimHashMaxDist < simHashDist then false
    else if a.TextLength = 0 ∨ b.TextLength = 0 then false
    else
      let lenA := min a.TextLength b.TextLength
      let lenB := max a.TextLength b.TextLength
      decide (lenB ≤ 2 * lenA)) = true ↔ _
  by_cases hd : QuickSimHashMaxDist < HammingDistance64 a.TextSimHash b.TextSimHash
  · rw [if_pos hd]
    simp only [Bool.false_eq_true, false_iff]
    intro h
    exact absurd h.1 (by omega)
  · rw [if_neg hd]
    push_neg at hd
    by_cases h0 : a.TextLength = 0 ∨ b.TextLength = 0
    · rw [if_pos h0]
      simp only [Bool.false_eq_true, false_iff]
      rintro ⟨-, h1, h2, -⟩
      rcases h0 with h | h <;> omega
    · rw [if_neg h0]
      push_neg at h0
      have hmx : 0 < max a.TextLength b.TextLength :=
        lt_of_lt_of_le (Nat.pos_of_ne_zero h0.1) (le_max_left _ _)
      rw [decide_eq_true_iff, ratio_ge_half_iff _ _ hmx]
      constructor
      · intro h
        exact ⟨hd, Nat.pos_of_ne_zero h0.1, Nat.pos_of_ne_zero h0.2, h⟩
      · intro h
        exact h.2.2.2

end WebsiteSimilar

namespace WebsiteSimilar

/-- C8 counterexample: on the CJK character `中` (UTF-8 bytes
`e4 b8 ad`), `hash64` does not equal the byte-by-byte FNV-1a iteration the
specification describes, because the Go loop iterates runes. -/
theorem hash64_bytewise_cex :
    utf8Bytes "中" = [228, 184, 173] ∧
      hash64 "中" ≠ fnv1aBytes (utf8Bytes "中") := by
  constructor <;> decide

/-- C8 amended: `hash64` is the FNV-1a-style fold with offset basis
`0xCBF29CE484222325` and prime `0x100000001B3` iterated
code-point-by-code-point: the value of each code point is XORed into the
accumulator, which is then multiplied by the prime modulo `2 ^ 64`. -/
theorem hash64_codepoint_fold (s : String) :
    hash64 s = fnv1aCodepoints (s.data.map Char.toNat) := by
  unfold hash64 fnv1aCodepoints
  rw [List.foldl_map]
  rfl

theorem hash64_lt (s : String) : hash64 s < U64 := by
  unfold hash64
  have hstep : ∀ (l : List Char) (h : Nat), h < U64 →
      l.foldl (fun h c => (h ^^^ c.toNat) * fnvPrime % U64) h < U64 := by
    intro l
    induction l with
    | nil => intro h hh; exact hh
    | cons c t ih =>
      intro h hh
      exact ih _ (Nat.mod_lt _ (by norm_num [U64]))
  exact hstep _ _ (by norm_num [fnvOffsetBasis, U64])

theorem testBit_foldl_set (p : Nat → Prop) [DecidablePred p] (l : List Nat)
    (init : Nat) (j : Nat) :
    ((l.foldl (fun fp i => if p i then fp ||| (1 <<< i) else fp) init).testBit j) =
      (init.testBit j || l.any fun i => decide (p i) && decide (i = j)) := by
  induction l generalizing init with
  | nil => simp
  | cons a t ih =>
    simp only [List.foldl_cons, List.any_cons]
    rw [ih]
    by_cases hp : p a
    · rw [if_pos hp]
      simp only [hp, decide_eq_true_eq, Bool.true_and, decide_True]
      rw [Nat.testBit_or]
      have h1 : (1 <<< a).testBit j = decide (a = j) := by
        rw [Nat.shiftLeft_eq, one_mul, Nat.testBit_two_pow]
      rw [h1]
      cases hb : Nat.testBit init j <;> simp
    · rw [if_neg hp]
      simp [hp]

theorem any_range_eq (n j : Nat) (g : Nat → Bool) :
    ((List.range n).any fun i => g i && decide (i = j)) = (decide (j < n) && g j) := by
  rw [Bool.eq_iff_iff]
  simp only [List.any_eq_true, List.mem_range, Bool.and_eq_true, decide_eq_true_iff]
  constructor
  · rintro ⟨i, hin, hg, rfl⟩
    exact ⟨hin, hg⟩
  · rintro ⟨hj, hg⟩
    exact ⟨j, hj, hg, rfl⟩

theorem and_two_pow_ne_zero_iff (n i : Nat) :
    (n &&& 1 <<< i ≠ 0) ↔ n.testBit i = true := by
  rw [Nat.shiftLeft_eq, one_mul]
  constructor
  · intro h
    by_contra htb
    apply h
    apply Nat.eq_of_testBit_eq
    intro k
    rw [Nat.testBit_and, Nat.testBit_two_pow, Nat.zero_testBit]
    by_cases hk : i = k
    · subst hk
      simp_all
    · simp [hk]
  · intro h h0
    have hcongr := congrArg (fun m => Nat.testBit m i) h0
    simp only [Nat.testBit_and, Nat.testBit_two_pow, Nat.zero_testBit] at hcongr
    simp_all

/-- C9: `computeSimHash` of the empty string is 0, and on any text whose
token list is a single token `t` it returns exactly `hash64 t`: each set
bit of the token hash leaves its accumulator at +1 and survives, each
clear bit leaves it at −1 and yields 0. -/
theorem computeSimHash_empty_single :
    computeSimHash "" = 0 ∧
      ∀ text t : String, fields text = [t] → computeSimHash text = hash64 t := by
  refine ⟨by decide, ?_⟩
  intro text t h
  unfold computeSimHash
  rw [h]
  rw [if_neg (by simp)]
  apply Nat.eq_of_testBit_eq
  intro j
  rw [testBit_foldl_set (fun i => 0 < simHashBit [t] i)]
  simp only [Nat.zero_testBit, Bool.false_or]
  have hbit : ∀ i, decide (0 < simHashBit [t] i) = (hash64 t).testBit i := by
    intro i
    have hsb : simHashBit [t] i =
        if hash64 t &&& 1 <<< i ≠ 0 then (1 : Int) else -1 := by
      simp [simHashBit]
    rw [hsb]
    by_cases hc : hash64 t &&& 1 <<< i ≠ 0
    · rw [if_pos hc, (and_two_pow_ne_zero_iff _ _).mp hc]
      decide
    · rw [if_neg hc]
      have : (hash64 t).testBit i = false := by
        by_contra hf
        exact hc ((and_two_pow_ne_zero_iff _ _).mpr (by simp_all))
      rw [this]
      decide
  have hany : ((List.range 64).any fun i =>
      decide (0 < simHashBit [t] i) && decide (i = j)) =
      (decide (j < 64) && (hash64 t).testBit j) := by
    rw [show (fun i => decide (0 < simHashBit [t] i) && decide (i = j)) =
        fun i => (hash64 t).testBit i && decide (i = j) from funext fun i => by
          rw [hbit i]]
    exact any_range_eq 64 j _
  rw [hany]
  by_cases hj : j < 64
  · simp [hj]
  · rw [decide_eq_false hj]
    have : (hash64 t).testBit j = false := by
      apply Nat.testBit_lt_two_pow
      calc hash64 t < U64 := hash64_lt t
        _ ≤ 2 ^ j := by
          rw [U64]
          exact Nat.pow_le_pow_right (by norm_num) (by omega)
    simp [this]

end WebsiteSimilar

namespace WebsiteSimilar

theorem headD_mem {l : List Nat} (h : l ≠ []) : l.headD 0 ∈ l := by
  cases l with
  | nil => exact absurd rfl h
  | cons a t => simp

theorem getLastD_mem : ∀ (l : List Nat) (d : Nat), l ≠ [] → l.getLastD d ∈ l
  | [], _, h => absurd rfl h
  | [a], d, _ => by simp
  | a :: b :: t, d, _ => by
    rw [List.getLastD_cons]
    exact List.mem_cons_of_mem a (getLastD_mem (b :: t) a (by simp))

theorem getLastD_indep (l : List Nat) (d d' : Nat) (h : l ≠ []) :
    l.getLastD d = l.getLastD d' := by
  cases l with
  | nil => exact absurd rfl h
  | cons a t => rw [List.getLastD_cons, List.getLastD_cons]

theorem sorted_headD_le {l : List Nat} (hs : List.Sorted (· ≤ ·) l) {x : Nat}
    (hx : x ∈ l) : l.headD 0 ≤ x := by
  cases l with
  | nil => simp at hx
  | cons a t =>
    rw [List.sorted_cons] at hs
    rcases List.mem_cons.mp hx with rfl | hxt
    · simp
    · simpa using hs.1 x hxt

theorem sorted_le_getLastD : ∀ (l : List Nat), List.Sorted (· ≤ ·) l →
    ∀ x ∈ l, x ≤ l.getLastD 0
  | [], _, x, hx => by simp at hx
  | [a], _, x, hx => by
    simp at hx
    subst hx
    simp
  | a :: b :: t, hs, x, hx => by
    rw [List.sorted_cons] at hs
    rw [List.getLastD_cons, getLastD_indep (b :: t) a 0 (by simp)]
    rcases List.mem_cons.mp hx with rfl | hxt
    · exact le_trans (hs.1 _ (getLastD_mem (b :: t) 0 (by simp))) (le_refl _)
    · exact sorted_le_getLastD (b :: t) hs.2 x hxt

/-- C7: on any group a rule actually tests (at least two candidates), the
length-similar test collects the positive fingerprint lengths; it passes
with none collected, fails with exactly one, and otherwise passes exactly
when min/max ≥ 0.8, i.e. when every two collected lengths `x, y` satisfy
`4x ≤ 5y`. -/
theorem isLengthSimilar_iff (group : List PerURLInfo) (hg : 2 ≤ group.length) :
    (isLengthSimilar group = true ↔
      ((group.map fun info => info.HtmlFP.Length).filter (fun n => 0 < n) = [] ∨
        (2 ≤ ((group.map fun info => info.HtmlFP.Length).filter fun n => 0 < n).length ∧
          ∀ x ∈ (group.map fun info => info.HtmlFP.Length).filter fun n => 0 < n,
            ∀ y ∈ (group.map fun info => info.HtmlFP.Length).filter fun n => 0 < n,
              4 * x ≤ 5 * y))) := by
  unfold isLengthSimilar
  rw [if_neg (by omega)]
  set ls := (group.map fun info => info.HtmlFP.Length).filter fun n => 0 < n with hls
  have hpos : ∀ x ∈ ls, 0 < x := by
    intro x hx
    have := (List.mem_filter.mp hx).2
    exact of_decide_eq_true this
  by_cases h0 : ls.length = 0
  · rw [if_pos h0]
    simp [List.length_eq_zero.mp h0]
  · rw [if_neg h0]
    by_cases h1 : ls.length < 2
    · rw [if_pos h1]
      simp only [Bool.false_eq_true, false_iff]
      rintro (h | ⟨h2, -⟩)
      · exact h0 (by simp [h])
      · omega
    · rw [if_neg h1]
      push_neg at h1
      have hperm : List.Perm (List.insertionSort (· ≤ ·) ls) ls :=
        List.perm_insertionSort _ ls
      have hsort : List.Sorted (· ≤ ·) (List.insertionSort (· ≤ ·) ls) :=
        List.sorted_insertionSort _ ls
      have hne : List.insertionSort (· ≤ ·) ls ≠ [] := by
        intro h
        rw [h] at hperm
        have := hperm.length_eq
        simp at this
        omega
      have hmnmem : (List.insertionSort (· ≤ ·) ls).headD 0 ∈ ls :=
        hperm.subset (headD_mem hne)
      have hmxmem : (List.insertionSort (· ≤ ·) ls).getLastD 0 ∈ ls :=
        hperm.subset (getLastD_mem _ 0 hne)
      have hmx : 0 < (List.insertionSort (· ≤ ·) ls).getLastD 0 := hpos _ hmxmem
      rw [if_neg (by omega), decide_eq_true_iff]
      constructor
      · intro h45
        right
        refine ⟨h1, fun x hx y hy => ?_⟩
        have hgx : x ≤ (List.insertionSort (· ≤ ·) ls).getLastD 0 :=
          sorted_le_getLastD _ hsort x (hperm.mem_iff.mpr hx)
        have hgy : (List.insertionSort (· ≤ ·) ls).headD 0 ≤ y :=
          sorted_headD_le hsort (hperm.mem_iff.mpr hy)
        omega
      · rintro (h | ⟨-, hall⟩)
        · exact absurd h (fun hh => h0 (by simp [hh]))
        · exact hall _ hmxmem _ hmnmem

/-- Concrete instantiation of `isLengthSimilar_iff`: a two-element group
with fingerprint lengths 5 and 5 passes the test. -/
theorem isLengthSimilar_iff_witness :
    2 ≤ ([⟨c3fr1, "o", ⟨5, 0⟩, true⟩, ⟨c3fr2, "o", ⟨5, 0⟩, true⟩] :
        List PerURLInfo).length ∧
      isLengthSimilar [⟨c3fr1, "o", ⟨5, 0⟩, true⟩, ⟨c3fr2, "o", ⟨5, 0⟩, true⟩] = true :=
  ⟨by decide,
    (isLengthSimilar_iff [⟨c3fr1, "o", ⟨5, 0⟩, true⟩, ⟨c3fr2, "o", ⟨5, 0⟩, true⟩]
      (by decide)).mpr (by decide)⟩

end WebsiteSimilar

namespace WebsiteSimilar

theorem appendAt_invariant {κ β : Type} [DecidableEq κ] (P : κ → β → Prop) :
    ∀ (m : List (κ × List β)) (k : κ) (v : β),
    (∀ kps ∈ m, ∀ p ∈ kps.2, P kps.1 p) → P k v →
    ∀ kps ∈ appendAt m k v, ∀ p ∈ kps.2, P kps.1 p
  | [], k, v, _, hv => by
    intro kps hkps p hp
    simp [appendAt] at hkps
    subst hkps
    simp at hp
    subst hp
    exact hv
  | (k₁, ps) :: rest, k, v, hm, hv => by
    intro kps hkps p hp
    simp only [appendAt] at hkps
    by_cases hk : k₁ = k
    · rw [if_pos hk] at hkps
      rcases List.mem_cons.mp hkps with rfl | hrest
      · rcases List.mem_append.mp hp with hold | hnew
        · exact hm (k₁, ps) (List.mem_cons_self _ _) p hold
        · simp at hnew
          subst hnew
          subst hk
          exact hv
      · exact hm _ (List.mem_cons_of_mem _ hrest) p hp
    · rw [if_neg hk] at hkps
      rcases List.mem_cons.mp hkps with rfl | hrest
      · exact hm _ (List.mem_cons_self _ _) p hp
      · exact appendAt_invariant P rest k v
          (fun kps h => hm kps (List.mem_cons_of_mem _ h)) hv kps hrest p hp

theorem bucketsOf_invariant (pages : List PageWithFeatures) :
    ∀ kps ∈ bucketsOf pages, ∀ p ∈ kps.2,
      p.Features ≠ none ∧ generateBucketKey p = kps.1 := by
  unfold bucketsOf
  have hgen : ∀ (l : List PageWithFeatures) (init : List (String × List PageWithFeatures)),
      (∀ kps ∈ init, ∀ p ∈ kps.2, p.Features ≠ none ∧ generateBucketKey p = kps.1) →
      ∀ kps ∈ l.foldl
        (fun bs p => if p.Features = none then bs else appendAt bs (generateBucketKey p) p)
        init,
        ∀ p ∈ kps.2, p.Features ≠ none ∧ generateBucketKey p = kps.1 := by
    intro l
    induction l with
    | nil => intro init h; exact h
    | cons q t ih =>
      intro init h
      simp only [List.foldl_cons]
      by_cases hq : q.Features = none
      · rw [if_pos hq]
        exact ih init h
      · rw [if_neg hq]
        apply ih
        exact appendAt_invariant
          (fun k p => p.Features ≠ none ∧ generateBucketKey p = k) init
          (generateBucketKey q) q h ⟨hq, rfl⟩
  exact hgen pages [] (by intro kps h; simp at h)

theorem mem_cluster_fold (bs : List (String × List PageWithFeatures))
    (g : ClusterGroup) :
    ∀ acc : List ClusterGroup × Nat,
    g ∈ (bs.foldl
      (fun acc kps =>
        let r := clustersOfBucket acc.2 kps.2
        (acc.1 ++ r.1, r.2)) acc).1 →
    g ∈ acc.1 ∨ ∃ kps ∈ bs, ∃ s, g ∈ (clustersOfBucket s kps.2).1 := by
  induction bs with
  | nil => intro acc h; exact Or.inl h
  | cons b t ih =>
    intro acc h
    simp only [List.foldl_cons] at h
    rcases ih _ h with hin | ⟨kps, hkps, s, hmem⟩
    · rcases List.mem_append.mp hin with hacc | hnew
      · exact Or.inl hacc
      · exact Or.inr ⟨b, List.mem_cons_self _ _, acc.2, hnew⟩
    · exact Or.inr ⟨kps, List.mem_cons_of_mem _ hkps, s, hmem⟩

theorem filterMap_get_length (l : List PageWithFeatures) :
    ∀ idxs : List Nat, (∀ i ∈ idxs, i < l.length) →
    (idxs.filterMap fun i => l.get? i).length = idxs.length := by
  intro idxs
  induction idxs with
  | nil => intro _; rfl
  | cons i t ih =>
    intro h
    have hi : i < l.length := h i (List.mem_cons_self _ _)
    have hsome : l.get? i = some (l.get ⟨i, hi⟩) := List.get?_eq_get hi
    rw [List.filterMap_cons_some hsome]
    simp only [List.length_cons]
    rw [ih fun j hj => h j (List.mem_cons_of_mem _ hj)]

theorem componentsOf_bounded (uf : List Nat) (n : Nat) :
    ∀ c ∈ componentsOf uf n, ∀ i ∈ c, i < n := by
  intro c hc i hi
  unfold componentsOf at hc
  rcases List.mem_map.mp hc with ⟨r, -, rfl⟩
  have := List.mem_filter.mp hi
  exact List.mem_range.mp this.1

theorem clustersOfBucket_mem (s : Nat) (ps : List PageWithFeatures)
    (g : ClusterGroup) (hg : g ∈ (clustersOfBucket s ps).1) :
    2 ≤ g.Members.length ∧ ∀ m ∈ g.Members, m ∈ ps := by
  unfold clustersOfBucket at hg
  by_cases hlen : ps.length < 2
  · rw [if_pos hlen] at hg
    simp at hg
  · rw [if_neg hlen] at hg
    simp only at hg
    rcases List.mem_map.mp hg with ⟨⟨j, c⟩, hjc, rfl⟩
    have hcmem : c ∈ (componentsOf
        (clusterPass2 (sortPages ps) (clusterPass1 (sortPages ps)
          (ufInit (sortPages ps).length))) (sortPages ps).length).filter
        fun c => 2 ≤ c.length := by
      have hjc₂ := List.mem_enumFrom hjc
      rw [hjc₂.2.2]
      exact List.getElem_mem _
    have hc2 : 2 ≤ c.length := by
      have := (List.mem_filter.mp hcmem).2
      exact of_decide_eq_true this
    have hcbound : ∀ i ∈ c, i < (sortPages ps).length :=
      componentsOf_bounded _ _ c (List.mem_filter.mp hcmem).1
    have hperm : List.Perm (sortPages ps) ps := List.perm_insertionSort _ ps
    constructor
    · simp only [mkClusterGroup]
      rw [show (sortPages (c.filterMap fun i => (sortPages ps).get? i)).length =
          (c.filterMap fun i => (sortPages ps).get? i).length from
        (List.perm_insertionSort _ _).length_eq]
      rw [filterMap_get_length _ c hcbound]
      exact hc2
    · intro m hm
      simp only [mkClusterGroup] at hm
      have hm₂ : m ∈ c.filterMap fun i => (sortPages ps).get? i :=
        (List.perm_insertionSort _ _).subset hm
      rcases List.mem_filterMap.mp hm₂ with ⟨i, -, hget⟩
      exact hperm.subset (List.get?_mem hget)

theorem cluster_mem_decomp (pages : List PageWithFeatures) (g : ClusterGroup)
    (hg : g ∈ Cluster pages) :
    ∃ kps ∈ bucketsOf pages, 2 ≤ g.Members.length ∧ ∀ m ∈ g.Members, m ∈ kps.2 := by
  unfold Cluster at hg
  rcases mem_cluster_fold _ g _ hg with h | ⟨kps, hkps, s, hmem⟩
  · simp at h
  · exact ⟨kps, hkps, (clustersOfBucket_mem s kps.2 g hmem).1,
      (clustersOfBucket_mem s kps.2 g hmem).2⟩

/-- C10: every member of every cluster `Cluster` emits has a non-nil
feature record, and any two members of one cluster have the same bucket
key (they were drawn from a single bucket, whose pages all share the key
and all carry features). -/
theorem cluster_members_featured_same_bucket (pages : List PageWithFeatures)
    (g : ClusterGroup) (hg : g ∈ Cluster pages) :
    ∀ m ∈ g.Members, m.Features ≠ none ∧
      ∀ m₂ ∈ g.Members, generateBucketKey m = generateBucketKey m₂ := by
  rcases cluster_mem_decomp pages g hg with ⟨kps, hkps, -, hsub⟩
  intro m hm
  have h₁ := bucketsOf_invariant pages kps hkps m (hsub m hm)
  refine ⟨h₁.1, fun m₂ hm₂ => ?_⟩
  have h₂ := bucketsOf_invariant pages kps hkps m₂ (hsub m₂ hm₂)
  rw [h₁.2, h₂.2]

end WebsiteSimilar

namespace WebsiteSimilar

theorem reportEntry_singleton (pwf : List PageWithFeatures)
    (ccs : List ClusterGroup) (ras : AssignMap) (fr : FetchResult)
    (hc : lookupA (clusterByPageIDOf ccs) fr.ID = none)
    (hr : lookupA ras fr.ID = none) :
    (reportEntry pwf ccs ras fr).ClusterID = "" ∧
      (reportEntry pwf ccs ras fr).IsCanonical = true := by
  cases hpm : lookupA (pageMapOf pwf) fr.ID with
  | none => simp [reportEntry, reportFallback, hpm, hr]
  | some page =>
    cases hpf : page.Features with
    | none => simp [reportEntry, reportFallback, hpm, hpf, hr]
    | some f => simp [reportEntry, reportFallback, hpm, hpf, hc, hr]

/-- C3 (amended): every content `ClusterGroup` emitted by `Cluster` has at
least two member pages, and a page belonging to no content cluster and no
rule cluster appears in the final report with cluster id `""` and
`isCanonical` true.  Rule-cluster ids, however, can end up on a single
page, because rules E3/L1/W1/M1/T1 check the two-member minimum before
the first-writer-wins filter (see the counterexample). -/
theorem cluster_min_two_and_singleton_report :
    (∀ (pages : List PageWithFeatures) (g : ClusterGroup),
      g ∈ Cluster pages → 2 ≤ g.Members.length) ∧
    (∀ (pwf : List PageWithFeatures) (ccs : List ClusterGroup) (ras : AssignMap)
      (fr : FetchResult),
      lookupA (clusterByPageIDOf ccs) fr.ID = none →
      lookupA ras fr.ID = none →
      (reportEntry pwf ccs ras fr).ClusterID = "" ∧
        (reportEntry pwf ccs ras fr).IsCanonical = true) := by
  constructor
  · intro pages g hg
    rcases cluster_mem_decomp pages g hg with ⟨-, -, h2, -⟩
    exact h2
  · intro pwf ccs ras fr hc hr
    exact reportEntry_singleton pwf ccs ras fr hc hr

/-- C3 counterexample: three same-origin pages with one shared HTML body;
rule E3 claims the two 404s, and the 200 page is then assigned alone to
the login-wall cluster id, which has exactly one member in the final
assignment map. -/
theorem ruleCluster_singleton_cex :
    assignedIdOf c3assign 3 ≠ "" ∧
      membersOfId c3assign (assignedIdOf c3assign 3) = 1 := by
  constructor <;> decide

/-- Concrete instantiation of `cluster_min_two_and_singleton_report`. -/
theorem cluster_min_two_and_singleton_report_witness :
    (wit10grp ∈ Cluster [wit10a, wit10b] ∧ 2 ≤ wit10grp.Members.length) ∧
      (lookupA (clusterByPageIDOf []) (7 : Nat) = none ∧
        lookupA ([] : AssignMap) (7 : Nat) = none ∧
        (reportEntry [] [] [] { ID := 7 }).ClusterID = "" ∧
        (reportEntry [] [] [] { ID := 7 }).IsCanonical = true) := by
  have h1 : wit10grp ∈ Cluster [wit10a, wit10b] := by decide
  have h2 : lookupA (clusterByPageIDOf []) ((7 : Nat)) = none := rfl
  have h3 : lookupA ([] : AssignMap) ((7 : Nat)) = none := rfl
  refine ⟨⟨h1, cluster_min_two_and_singleton_report.1 [wit10a, wit10b] wit10grp h1⟩,
    h2, h3, ?_, ?_⟩
  · exact (cluster_min_two_and_singleton_report.2 [] [] [] { ID := 7 } h2 h3).1
  · exact (cluster_min_two_and_singleton_report.2 [] [] [] { ID := 7 } h2 h3).2

/-- Concrete instantiation of `cluster_members_featured_same_bucket`: the
two-page text cluster. -/
theorem cluster_members_featured_witness :
    wit10grp ∈ Cluster [wit10a, wit10b] ∧ wit10a ∈ wit10grp.Members ∧
      wit10b ∈ wit10grp.Members ∧ wit10a.Features ≠ none ∧
      generateBucketKey wit10a = generateBucketKey wit10b := by
  have h1 : wit10grp ∈ Cluster [wit10a, wit10b] := by decide
  have h2 : wit10a ∈ wit10grp.Members := by decide
  have h3 : wit10b ∈ wit10grp.Members := by decide
  have hmain := cluster_members_featured_same_bucket [wit10a, wit10b] wit10grp h1 wit10a h2
  exact ⟨h1, h2, h3, hmain.1, hmain.2 wit10b h3⟩

/-- C2 counterexample: an HTML-featured page (zero-valued category) and an
image page on one host share a bucket key despite different categories,
and `Cluster` merges them into one content cluster via the visual
override. -/
theorem bucketKey_crossCategory_cex :
    (cexHtmlPage.Features.getD {}).Category ≠ (cexImagePage.Features.getD {}).Category ∧
      generateBucketKey cexHtmlPage = generateBucketKey cexImagePage ∧
      Cluster [cexHtmlPage, cexImagePage] =
        [⟨"cluster-00001", some cexImagePage, [cexImagePage, cexHtmlPage]⟩] := by
  refine ⟨by decide, by decide, by decide⟩

/-- C2 (amended): the bucket key is the MD5 hex of host, top-16 SimHash
bits and `textLength/1000` only — the category is not part of it, so two
pages agreeing on those three values co-bucket whatever their categories
(and, per the counterexample, can even merge into one content cluster). -/
theorem bucketKey_ignores_category (p q : PageWithFeatures)
    (hhost : urlHostPort p.FinalURL = urlHostPort q.FinalURL)
    (htop : ((p.Features.getD {}).TextSimHash >>> 48) &&& 0xFFFF =
      ((q.Features.getD {}).TextSimHash >>> 48) &&& 0xFFFF)
    (hlen : (p.Features.getD {}).TextLength / 1000 =
      (q.Features.getD {}).TextLength / 1000) :
    generateBucketKey p = generateBucketKey q := by
  have hkey : urlHostPort p.FinalURL ++ "|" ++
      toString (((p.Features.getD {}).TextSimHash >>> 48) &&& 0xFFFF) ++ "|" ++
      toString ((p.Features.getD {}).TextLength / 1000) =
      urlHostPort q.FinalURL ++ "|" ++
      toString (((q.Features.getD {}).TextSimHash >>> 48) &&& 0xFFFF) ++ "|" ++
      toString ((q.Features.getD {}).TextLength / 1000) := by
    rw [hhost, htop, hlen]
  exact congrArg (fun k => bytesToHex (md5Str k)) hkey

/-- Concrete instantiation of `bucketKey_ignores_category`. -/
theorem bucketKey_ignores_category_witness :
    urlHostPort cexHtmlPage.FinalURL = urlHostPort cexImagePage.FinalURL ∧
      ((cexHtmlPage.Features.getD {}).TextSimHash >>> 48) &&& 0xFFFF =
        ((cexImagePage.Features.getD {}).TextSimHash >>> 48) &&& 0xFFFF ∧
      (cexHtmlPage.Features.getD {}).TextLength / 1000 =
        (cexImagePage.Features.getD {}).TextLength / 1000 ∧
      generateBucketKey cexHtmlPage = generateBucketKey cexImagePage :=
  ⟨by decide, by decide, by decide,
    bucketKey_ignores_category cexHtmlPage cexImagePage (by decide) (by decide)
      (by decide)⟩

/-- C6: evaluating `BuildRuleAssignments` on two failed fetches (error
set, status 0, empty final URL, empty category) shows both pages *do*
receive a rule assignment — rule R1 groups all failed fetches under their
shared empty final URL (`redir-` of `md5("")`), contradicting the
specified behaviour that failed pages stay un-clustered. -/
theorem failed_fetch_rule_assigned :
    c6fr1.Error ≠ "" ∧ c6fr1.StatusCode = 0 ∧ c6fr1.FinalURL = "" ∧
      c6fr1.ContentCategory = "" ∧
      c6fr2.Error ≠ "" ∧ c6fr2.StatusCode = 0 ∧ c6fr2.FinalURL = "" ∧
      lookupA c6assign 1 = some ⟨"redir-d41d8cd98f00b204", true, 8⟩ ∧
      lookupA c6assign 2 = some ⟨"redir-d41d8cd98f00b204", false, 8⟩ := by
  refine ⟨by decide, by decide, by decide, by decide, by decide, by decide, by decide,
    by decide, by decide⟩

end WebsiteSimilar

namespace WebsiteSimilar

/-- C4: `BuildReport` maps every fetch result through `reportEntry`; a
page with features that is a member of a content cluster takes the
cluster id, the canonical flag, and the four similarity scores plus the
display total against the features of the cluster canonical — independently of
any rule assignment for that page; a page without that content-cluster
path that has a rule assignment takes the id and flag of the rule with all
similarity fields left at zero. -/
theorem report_content_cluster_precedence :
    (∀ (frs : List FetchResult) (pwf : List PageWithFeatures)
      (ccs : List ClusterGroup) (ras : AssignMap) (opts : Options),
      (BuildReport frs pwf ccs ras opts).URLs = frs.map (reportEntry pwf ccs ras)) ∧
    (∀ (pwf : List PageWithFeatures) (ccs : List ClusterGroup)
      (ras ras₂ : AssignMap) (fr : FetchResult) (page : PageWithFeatures)
      (f : PageFeatures) (cid : String) (grp : ClusterGroup)
      (can : PageWithFeatures) (cf : PageFeatures),
      lookupA (pageMapOf pwf) fr.ID = some page →
      page.Features = some f →
      lookupA (clusterByPageIDOf ccs) fr.ID = some cid →
      findClusterByID ccs cid = some grp →
      grp.Canonical = some can →
      can.Features = some cf →
      ((reportEntry pwf ccs ras fr).ClusterID = cid ∧
        (reportEntry pwf ccs ras fr).IsCanonical =
          decide (fr.ID = (lookupA (canonicalByClusterOf ccs) cid).getD 0) ∧
        (reportEntry pwf ccs ras fr).ContentSim = ((simContent f cf : ℚ) : ℝ) ∧
        (reportEntry pwf ccs ras fr).StructureSim = simStructure f cf ∧
        (reportEntry pwf ccs ras fr).VisualSim = ((simVisual f cf : ℚ) : ℝ) ∧
        (reportEntry pwf ccs ras fr).BehaviorSim = simBehavior f cf ∧
        (reportEntry pwf ccs ras fr).SimilarityToCanonical =
          totalSim ((simContent f cf : ℚ) : ℝ) (simStructure f cf)
            ((simVisual f cf : ℚ) : ℝ) (simBehavior f cf) ∧
        reportEntry pwf ccs ras fr = reportEntry pwf ccs ras₂ fr)) ∧
    (∀ (pwf : List PageWithFeatures) (ccs : List ClusterGroup) (ras : AssignMap)
      (fr : FetchResult) (ra : RuleAssignment),
      (lookupA (pageMapOf pwf) fr.ID = none ∨
        (∃ page, lookupA (pageMapOf pwf) fr.ID = some page ∧ page.Features = none) ∨
        lookupA (clusterByPageIDOf ccs) fr.ID = none) →
      lookupA ras fr.ID = some ra →
      ((reportEntry pwf ccs ras fr).ClusterID = ra.ClusterID ∧
        (reportEntry pwf ccs ras fr).IsCanonical = ra.IsCanonical ∧
        (reportEntry pwf ccs ras fr).ContentSim = 0 ∧
        (reportEntry pwf ccs ras fr).StructureSim = 0 ∧
        (reportEntry pwf ccs ras fr).VisualSim = 0 ∧
        (reportEntry pwf ccs ras fr).BehaviorSim = 0 ∧
        (reportEntry pwf ccs ras fr).SimilarityToCanonical = 0)) := by
  refine ⟨fun _ _ _ _ _ => rfl, ?_, ?_⟩
  · intro pwf ccs ras ras₂ fr page f cid grp can cf h1 h2 h3 h4 h5 h6
    simp only [reportEntry, h1, h2, h3, h4, h5, h6, CalculateSimilarities]
    refine ⟨?_, ?_, ?_, ?_, ?_, ?_, ?_, ?_⟩ <;> trivial
  · intro pwf ccs ras fr ra hcase hra
    rcases hcase with h | ⟨page, hp, hf⟩ | hc
    · simp only [reportEntry, h, reportFallback, hra]
      refine ⟨?_, ?_, ?_, ?_, ?_, ?_, ?_⟩ <;> trivial
    · simp only [reportEntry, hp, hf, reportFallback, hra]
      refine ⟨?_, ?_, ?_, ?_, ?_, ?_, ?_⟩ <;> trivial
    · cases hpm : lookupA (pageMapOf pwf) fr.ID with
      | none =>
        simp only [reportEntry, hpm, reportFallback, hra]
        refine ⟨?_, ?_, ?_, ?_, ?_, ?_, ?_⟩ <;> trivial
      | some page =>
        cases hpf : page.Features with
        | none =>
          simp only [reportEntry, hpm, hpf, reportFallback, hra]
          refine ⟨?_, ?_, ?_, ?_, ?_, ?_, ?_⟩ <;> trivial
        | some f =>
          simp only [reportEntry, hpm, hpf, hc, reportFallback, hra]
          refine ⟨?_, ?_, ?_, ?_, ?_, ?_, ?_⟩ <;> trivial

/-- Concrete instantiation of `report_content_cluster_precedence`: page 1
has features, sits in `cluster-00001` as its canonical and also carries a
rule assignment that the report ignores; page 2 has no features and takes
its rule assignment with zero similarity fields. -/
theorem report_content_cluster_precedence_witness :
    (lookupA (pageMapOf [wit4page]) wit4page.ID = some wit4page ∧
      wit4page.Features = some wit4f ∧
      lookupA (clusterByPageIDOf [wit4grp]) wit4page.ID = some "cluster-00001" ∧
      findClusterByID [wit4grp] "cluster-00001" = some wit4grp ∧
      wit4grp.Canonical = some wit4page ∧
      (reportEntry [wit4page] [wit4grp] wit4ras wit4page.toFetchResult).ClusterID =
        "cluster-00001" ∧
      reportEntry [wit4page] [wit4grp] wit4ras wit4page.toFetchResult =
        reportEntry [wit4page] [wit4grp] [] wit4page.toFetchResult) ∧
    (lookupA (pageMapOf [wit4page]) wit4fr2.ID = none ∧
      lookupA wit4ras wit4fr2.ID = some ⟨"redir-ab12", false, 8⟩ ∧
      (reportEntry [wit4page] [wit4grp] wit4ras wit4fr2).ClusterID = "redir-ab12" ∧
      (reportEntry [wit4page] [wit4grp] wit4ras wit4fr2).ContentSim = 0) := by
  have h1 : lookupA (pageMapOf [wit4page]) wit4page.ID = some wit4page := by decide
  have h2 : wit4page.Features = some wit4f := rfl
  have h3 : lookupA (clusterByPageIDOf [wit4grp]) wit4page.ID =
      some "cluster-00001" := by decide
  have h4 : findClusterByID [wit4grp] "cluster-00001" = some wit4grp := by decide
  have h5 : wit4grp.Canonical = some wit4page := rfl
  have hA := report_content_cluster_precedence.2.1 [wit4page] [wit4grp] wit4ras []
    wit4page.toFetchResult wit4page wit4f "cluster-00001" wit4grp wit4page wit4f
    h1 h2 h3 h4 h5 h2
  have hn : lookupA (pageMapOf [wit4page]) wit4fr2.ID = none := by decide
  have hra : lookupA wit4ras wit4fr2.ID = some ⟨"redir-ab12", false, 8⟩ := by decide
  have hB := report_content_cluster_precedence.2.2 [wit4page] [wit4grp] wit4ras
    wit4fr2 ⟨"redir-ab12", false, 8⟩ (Or.inl hn) hra
  exact ⟨⟨h1, h2, h3, h4, h5, hA.1, hA.2.2.2.2.2.2.2⟩, hn, hra, hB.1, hB.2.2.1⟩

end WebsiteSimilar

namespace WebsiteSimilar

/-- Concrete instantiation of `computeSimHash_empty_single` at the
one-token text `"ab"`. -/
theorem computeSimHash_empty_single_witness :
    fields "ab" = ["ab"] ∧ computeSimHash "ab" = hash64 "ab" :=
  ⟨by decide, computeSimHash_empty_single.2 "ab" "ab" (by decide)⟩

end WebsiteSimilar
